import Mathlib

/-!
# Verification of CycloneTCP driver claims

Shallow embedding, in Lean 4, of the driver routines of the CycloneTCP
repository that the frozen claims talk about:

* `msp432e4_eth_driver.c` — MSP432E4 Ethernet MAC driver (DMA descriptor
  rings, transmit/receive paths, MAC address filter, CRC-32 hash);
* `w5100s_driver.c` — W5100S Ethernet controller (transmit path);
* `ksz9477_driver.c` — KSZ9477 switch driver (static/dynamic FDB tables,
  aging time, tail-tag processing).

Machine integers are modelled as `Nat` with explicit reduction modulo
`2 ^ 32` wherever the C computation can overflow; C arrays are modelled
as functions `Nat → α` updated pointwise; "next descriptor address"
pointers are modelled as ring indices.  Hardware registers, where a claim
needs them, are carried in explicit state records.
-/

set_option maxRecDepth 200000

namespace CycloneTcp

/-- C `error_t` values used by the drivers under verification. -/
inductive error_t where
  | noError
  | invalidLength
  | failure
  | bufferEmpty
  | invalidPacket
  | invalidEntry
  | endOfTable
  | tableFull
  | notFound
  | invalidPort
  deriving DecidableEq, Repr

/-- Pointwise update of a function modelling a C array. -/
def updFn {α : Type} (f : Nat → α) (i : Nat) (v : α) : Nat → α :=
  fun j => if j = i then v else f j

/-! ## MSP432E4 descriptor word bit masks

Modelled from the spec: the numeric values come from the driver header
`msp432e4_eth_driver.h` / TivaWare `hw_emac.h`, which are not part of the
source extract; the spec fixes the layout ("ownership bit, length field,
flag bits, buffer/next pointers ... must match the silicon's documented
layout").  The values below are the documented MSP432E4/Synopsys EMAC
descriptor layout. -/

def EMAC_TDES0_OWN : Nat := 0x80000000

def EMAC_TDES0_IC : Nat := 0x40000000

def EMAC_TDES0_LS : Nat := 0x20000000

def EMAC_TDES0_FS : Nat := 0x10000000

def EMAC_TDES0_TCH : Nat := 0x00100000

def EMAC_TDES1_TBS1 : Nat := 0x00001FFF

def EMAC_RDES0_OWN : Nat := 0x80000000

def EMAC_RDES0_FL : Nat := 0x3FFF0000

def EMAC_RDES0_ES : Nat := 0x00008000

def EMAC_RDES0_FS : Nat := 0x00000200

def EMAC_RDES0_LS : Nat := 0x00000100

def EMAC_RDES1_RCH : Nat := 0x00004000

def EMAC_RDES1_RBS1 : Nat := 0x00001FFF

/-- Modelled from the spec: default TX/RX buffer size of the MSP432E4
driver header (`MSP432E4_ETH_TX_BUFFER_SIZE`, not in the source extract;
the sibling headers in the extract fix the same 1536-byte value). -/
def MSP432E4_ETH_TX_BUFFER_SIZE : Nat := 1536

def MSP432E4_ETH_RX_BUFFER_SIZE : Nat := 1536

/-- One MSP432E4 transmit DMA descriptor (`Msp432e4TxDmaDesc`): eight
32-bit words.  `tdes2` (buffer address) is modelled as the index of the
per-descriptor buffer, `tdes3` (next descriptor address) as the ring
index of the successor descriptor. -/
structure Msp432e4TxDmaDesc where
  tdes0 : Nat
  tdes1 : Nat
  tdes2 : Nat
  tdes3 : Nat
  tdes4 : Nat
  tdes5 : Nat
  tdes6 : Nat
  tdes7 : Nat
  deriving DecidableEq, Repr

/-- One MSP432E4 receive DMA descriptor (`Msp432e4RxDmaDesc`). -/
structure Msp432e4RxDmaDesc where
  rdes0 : Nat
  rdes1 : Nat
  rdes2 : Nat
  rdes3 : Nat
  rdes4 : Nat
  rdes5 : Nat
  rdes6 : Nat
  rdes7 : Nat
  deriving DecidableEq, Repr

/-- Body of the TX initialization loop of `msp432e4EthInitDmaDesc`
(value stored into `txDmaDesc[i]` on iteration `i`). -/
def msp432e4TxDescLoopBody (i : Nat) : Msp432e4TxDmaDesc :=
  { tdes0 := EMAC_TDES0_IC ||| EMAC_TDES0_TCH
    tdes1 := 0
    tdes2 := i
    tdes3 := i + 1
    tdes4 := 0
    tdes5 := 0
    tdes6 := 0
    tdes7 := 0 }

/-- Body of the RX initialization loop of `msp432e4EthInitDmaDesc`. -/
def msp432e4RxDescLoopBody (i : Nat) : Msp432e4RxDmaDesc :=
  { rdes0 := EMAC_RDES0_OWN
    rdes1 := EMAC_RDES1_RCH ||| (MSP432E4_ETH_RX_BUFFER_SIZE &&& EMAC_RDES1_RBS1)
    rdes2 := i
    rdes3 := i + 1
    rdes4 := 0
    rdes5 := 0
    rdes6 := 0
    rdes7 := 0 }

/-- TX half of `msp432e4EthInitDmaDesc`: the loop writes
`msp432e4TxDescLoopBody i` at every `i < count`, then the trailing
statement `txDmaDesc[i - 1].tdes3 = &txDmaDesc[0]` re-links the last
descriptor to index 0.  The result is the array contents at indices
`< count`. -/
def msp432e4EthInitDmaDescTx (count : Nat) : Nat → Msp432e4TxDmaDesc :=
  updFn (fun i => msp432e4TxDescLoopBody i) (count - 1)
    { msp432e4TxDescLoopBody (count - 1) with tdes3 := 0 }

/-- RX half of `msp432e4EthInitDmaDesc`, with the analogous re-link of
the last descriptor (`rxDmaDesc[i - 1].rdes3 = &rxDmaDesc[0]`). -/
def msp432e4EthInitDmaDescRx (count : Nat) : Nat → Msp432e4RxDmaDesc :=
  updFn (fun i => msp432e4RxDescLoopBody i) (count - 1)
    { msp432e4RxDescLoopBody (count - 1) with rdes3 := 0 }

/-! ## MSP432E4 transmit and receive paths -/

/-- State touched by `msp432e4EthSendPacket` and `msp432e4EthReceivePacket`:
the static descriptor rings and cursors, the per-descriptor TX buffers,
the stack-side `nicTxEvent`, the log of packets handed to
`nicProcessPacket`, and the EMAC registers the functions write. -/
structure Msp432e4State where
  txRing : Nat → Msp432e4TxDmaDesc
  txCur : Nat
  rxRing : Nat → Msp432e4RxDmaDesc
  rxCur : Nat
  txBuffer : Nat → List Nat
  nicTxEvent : Bool
  rxPackets : List (Nat × Nat)
  dmaris : Nat
  txpolld : Nat
  rxpolld : Nat

/-- `msp432e4EthSendPacket`.  The multi-part `NetBuffer` plus `offset` is
modelled as the payload byte list `data`; `netBufferGetLength(buffer) -
offset` is its length, and `netBufferRead` into the buffer addressed by
`tdes2` becomes a pointwise buffer update.  `osSetEvent(&nicTxEvent)`
sets the event flag. -/
def msp432e4EthSendPacket (s : Msp432e4State) (data : List Nat) :
    error_t × Msp432e4State :=
  let length := data.length
  if length > MSP432E4_ETH_TX_BUFFER_SIZE then
    (error_t.invalidLength, { s with nicTxEvent := true })
  else if (s.txRing s.txCur).tdes0 &&& EMAC_TDES0_OWN ≠ 0 then
    (error_t.failure, s)
  else
    let d := s.txRing s.txCur
    let s := { s with txBuffer := updFn s.txBuffer d.tdes2 data }
    let d := { d with tdes1 := length &&& EMAC_TDES1_TBS1 }
    let d := { d with tdes0 := d.tdes0 ||| (EMAC_TDES0_LS ||| EMAC_TDES0_FS) }
    let d := { d with tdes0 := d.tdes0 ||| EMAC_TDES0_OWN }
    let s := { s with txRing := updFn s.txRing s.txCur d }
    let s := { s with dmaris := 0x00000004, txpolld := 0 }
    let s := { s with txCur := d.tdes3 }
    let s :=
      if (s.txRing s.txCur).tdes0 &&& EMAC_TDES0_OWN = 0 then
        { s with nicTxEvent := true }
      else
        s
    (error_t.noError, s)

/-- `msp432e4EthReceivePacket`.  `nicProcessPacket` is modelled by
appending `(rdes2, n)` — buffer index and clamped length — to the
`rxPackets` log. -/
def msp432e4EthReceivePacket (s : Msp432e4State) : error_t × Msp432e4State :=
  let step :=
    if (s.rxRing s.rxCur).rdes0 &&& EMAC_RDES0_OWN = 0 then
      let d := s.rxRing s.rxCur
      let res :=
        if d.rdes0 &&& EMAC_RDES0_FS ≠ 0 ∧ d.rdes0 &&& EMAC_RDES0_LS ≠ 0 then
          if d.rdes0 &&& EMAC_RDES0_ES = 0 then
            let n := (d.rdes0 &&& EMAC_RDES0_FL) >>> 16
            let n := min n MSP432E4_ETH_RX_BUFFER_SIZE
            (error_t.noError,
              { s with rxPackets := s.rxPackets ++ [(d.rdes2, n)] })
          else
            (error_t.invalidPacket, s)
        else
          (error_t.invalidPacket, s)
      let s1 := res.2
      let s1 :=
        { s1 with rxRing := updFn s1.rxRing s.rxCur { d with rdes0 := EMAC_RDES0_OWN } }
      let s1 := { s1 with rxCur := d.rdes3 }
      (res.1, s1)
    else
      (error_t.bufferEmpty, s)
  (step.1, { step.2 with dmaris := 0x00000080, rxpolld := 0 })

/-! ## W5100S transmit path -/

/-- Modelled from the spec: `ETH_MAX_FRAME_SIZE` (1518 bytes, the
standard maximal Ethernet frame) from `core/ethernet.h`, which is not in
the source extract. -/
def ETH_MAX_FRAME_SIZE : Nat := 1518

/-- State touched by `w5100sSendPacket`: the hardware's reported TX free
size (`W5100S_S0_TX_FSR0`), the data written to the chip's TX buffer,
and the stack-side `nicTxEvent`.  After `w5100sWriteData` the hardware
free-size register drops by the written length (modelled from the spec's
description of the chip's TX FIFO). -/
structure W5100sState where
  txFreeSize : Nat
  txData : List (List Nat)
  nicTxEvent : Bool

/-- `w5100sSendPacket` (frame payload modelled as the byte list `data`). -/
def w5100sSendPacket (s : W5100sState) (data : List Nat) :
    error_t × W5100sState :=
  let length := data.length
  if length > ETH_MAX_FRAME_SIZE then
    (error_t.invalidLength, { s with nicTxEvent := true })
  else
    let n := s.txFreeSize
    if n < length then
      (error_t.failure, s)
    else
      let s := { s with txData := s.txData ++ [data], txFreeSize := n - length }
      let n := s.txFreeSize
      let s :=
        if n ≥ ETH_MAX_FRAME_SIZE then { s with nicTxEvent := true } else s
      (error_t.noError, s)

/-- An all-zero TX descriptor, used to build concrete test states. -/
def txZeroDesc : Msp432e4TxDmaDesc :=
  { tdes0 := 0, tdes1 := 0, tdes2 := 0, tdes3 := 0, tdes4 := 0, tdes5 := 0,
    tdes6 := 0, tdes7 := 0 }

/-- An all-zero RX descriptor, used to build concrete test states. -/
def rxZeroDesc : Msp432e4RxDmaDesc :=
  { rdes0 := 0, rdes1 := 0, rdes2 := 0, rdes3 := 0, rdes4 := 0, rdes5 := 0,
    rdes6 := 0, rdes7 := 0 }

/-- A concrete MAC driver state whose rings hold the given descriptors at
every index, with the transmit event initially clear. -/
def mspTestState (dtx : Msp432e4TxDmaDesc) (drx : Msp432e4RxDmaDesc) :
    Msp432e4State :=
  { txRing := fun _ => dtx
    txCur := 0
    rxRing := fun _ => drx
    rxCur := 0
    txBuffer := fun _ => []
    nicTxEvent := false
    rxPackets := []
    dmaris := 0
    txpolld := 0
    rxpolld := 0 }

/-! ## MSP432E4 CRC-32 and MAC address filter -/

/-- `2 ^ 32`, written as a literal: the wrap-around modulus of the C
`uint32_t` arithmetic. -/
def UINT32_LIMIT : Nat := 4294967296

/-- One iteration of the inner (bit) loop of `msp432e4EthCalcCrc`:
`x` is `p[i] >> j` for the current byte and bit position. -/
def msp432e4EthCrcStep (crc x : Nat) : Nat :=
  if ((crc >>> 31) ^^^ x) &&& 0x01 ≠ 0 then
    ((crc <<< 1) % UINT32_LIMIT) ^^^ 0x04C11DB7
  else
    (crc <<< 1) % UINT32_LIMIT

/-- The inner `for(j = 0; j < 8; j++)` loop of `msp432e4EthCalcCrc`. -/
def msp432e4EthCrcByte (crc byte : Nat) : Nat :=
  (List.range 8).foldl (fun c j => msp432e4EthCrcStep c (byte >>> j)) crc

/-- `msp432e4EthCalcCrc` over a byte list: CRC preset `0xFFFFFFFF`,
message processed bit by bit, result complemented (`~crc` on a
`uint32_t` is `crc ^^^ 0xFFFFFFFF`). -/
def msp432e4EthCalcCrc (data : List Nat) : Nat :=
  (data.foldl msp432e4EthCrcByte 0xFFFFFFFF) ^^^ 0xFFFFFFFF

/-- The spec's description of the hash CRC, written independently of the
driver loop: a degree-32 CRC with polynomial `0x04C11DB7`, initial value
all-ones and inverted output, consuming the message as a flat bit stream,
each byte least-significant bit first. -/
def crc32SpecRound (crc b : Nat) : Nat :=
  if ((crc >>> 31) ^^^ b) &&& 0x01 ≠ 0 then
    ((crc <<< 1) % UINT32_LIMIT) ^^^ 0x04C11DB7
  else
    (crc <<< 1) % UINT32_LIMIT

/-- The eight bits of a byte, least-significant first. -/
def byteBitsLsbFirst (byte : Nat) : List Nat :=
  (List.range 8).map (fun j => (byte >>> j) &&& 0x01)

/-- Spec-worded CRC-32: fold the polynomial round over the bit stream. -/
def crc32Spec (data : List Nat) : Nat :=
  ((data.flatMap byteBitsLsbFirst).foldl crc32SpecRound 0xFFFFFFFF) ^^^ 0xFFFFFFFF

/-- Hash-table index used by `msp432e4EthUpdateMacAddrFilter`: the upper
6 bits of the CRC. -/
def msp432e4EthHashIndexOfCrc (crc : Nat) : Nat :=
  (crc >>> 26) &&& 0x3F

/-- A 48-bit MAC address as six byte fields (`MacAddr.b[0..5]`). -/
structure MacAddr where
  b0 : Nat
  b1 : Nat
  b2 : Nat
  b3 : Nat
  b4 : Nat
  b5 : Nat
  deriving DecidableEq, Repr

/-- The six bytes of a MAC address in memory order, as fed to
`msp432e4EthCalcCrc(&entry->addr, sizeof(MacAddr))`. -/
def macAddrBytes (a : MacAddr) : List Nat :=
  [a.b0, a.b1, a.b2, a.b3, a.b4, a.b5]

/-- Modelled from the spec: `macIsMulticastAddr` of `core/ethernet.h`
(not in the source extract) tests the individual/group bit, the least
significant bit of the first address byte. -/
def macIsMulticastAddr (a : MacAddr) : Bool :=
  a.b0 &&& 0x01 != 0

/-- One entry of the interface's MAC address filter
(`MacFilterEntry`: address plus reference count). -/
structure MacFilterEntry where
  addr : MacAddr
  refCount : Nat

/-- Accumulator of the filter-programming loop of
`msp432e4EthUpdateMacAddrFilter`: the unicast addresses saved so far
(`unicastMacAddr[0..j-1]`, `j` = list length) and the two-word multicast
hash table (`hashTable[0..1]`, as a function to mirror the C array). -/
structure FilterAcc where
  unicast : List MacAddr
  hashTable : Nat → Nat

/-- Hash-table index of a MAC address: the upper 6 bits of the CRC the
loop body computes (`crc = msp432e4EthCalcCrc(...)`;
`k = (crc >> 26) & 0x3F`). -/
def msp432e4EthHashIndex (a : MacAddr) : Nat :=
  msp432e4EthHashIndexOfCrc (msp432e4EthCalcCrc (macAddrBytes a))

/-- Body of the filter loop of `msp432e4EthUpdateMacAddrFilter`
(`hashTable[k / 32] |= (1 << (k % 32))` becomes a pointwise update). -/
def msp432e4EthFilterStep (acc : FilterAcc) (entry : MacFilterEntry) :
    FilterAcc :=
  if entry.refCount > 0 then
    if macIsMulticastAddr entry.addr then
      { acc with hashTable := (updFn acc.hashTable
          (msp432e4EthHashIndex entry.addr / 32)
          (acc.hashTable (msp432e4EthHashIndex entry.addr / 32) |||
            (1 <<< (msp432e4EthHashIndex entry.addr % 32)))) }
    else
      if acc.unicast.length < 3 then
        { acc with unicast := acc.unicast ++ [entry.addr] }
      else
        acc
  else
    acc

/-- The filter-programming loop of `msp432e4EthUpdateMacAddrFilter`
(the subsequent register writes expose `unicast` as the perfect-filter
slots `ADDR1..3`, enabled for the first `unicast.length` of them, and
`hashTable` as `HASHTBLL`/`HASHTBLH`). -/
def msp432e4EthUpdateMacAddrFilter (filter : List MacFilterEntry) : FilterAcc :=
  filter.foldl msp432e4EthFilterStep { unicast := [], hashTable := fun _ => 0 }

/-- An address is matched by the programmed filter if it sits in an
enabled perfect-match slot or its hash bit is set. -/
def macAddrMatchedByFilter (r : FilterAcc) (a : MacAddr) : Prop :=
  a ∈ r.unicast ∨
    (r.hashTable (msp432e4EthHashIndex a / 32)).testBit
      (msp432e4EthHashIndex a % 32)

instance (r : FilterAcc) (a : MacAddr) :
    Decidable (macAddrMatchedByFilter r a) := by
  unfold macAddrMatchedByFilter
  infer_instance

/-- The active unicast addresses of a filter table, in table order. -/
def activeUnicastAddrs (filter : List MacFilterEntry) : List MacAddr :=
  (filter.filter (fun e => decide (0 < e.refCount) && !macIsMulticastAddr e.addr)).map
    (fun e => e.addr)

/-! ## KSZ9477 switch driver: static MAC table

Register bit masks and the table size are modelled from the spec: they
live in `ksz9477.h` / `nic.h`, which are not part of the source extract
(the spec fixes the record shape: "the 4-word entry record (valid bit,
forward-port bitmap, override bit, 48-bit address split across two
words)", a 16-entry static table, and a CPU-port alias mask). -/

def KSZ9477_STATIC_MAC_TABLE_SIZE : Nat := 16

def KSZ9477_STATIC_TABLE_ENTRY1_VALID : Nat := 0x80000000

def KSZ9477_STATIC_TABLE_ENTRY2_OVERRIDE : Nat := 0x40000000

def KSZ9477_STATIC_TABLE_ENTRY2_PORT_FORWARD : Nat := 0x0000007F

def KSZ9477_PORT_MASK : Nat := 0x7F

def KSZ9477_PORT6_MASK : Nat := 0x20

def SWITCH_CPU_PORT_MASK : Nat := 0x80000000

/-- A switch forwarding-database entry (`SwitchFdbEntry`). -/
structure SwitchFdbEntry where
  macAddr : MacAddr
  srcPort : Nat
  destPorts : Nat
  override : Bool
  deriving DecidableEq, Repr

/-- The four 32-bit words of one static-table slot
(`KSZ9477_STATIC_TABLE_ENTRY1..4`). -/
structure Ksz9477StaticRecord where
  entry1 : Nat
  entry2 : Nat
  entry3 : Nat
  entry4 : Nat
  deriving DecidableEq, Repr

/-- `ksz9477GetStaticFdbEntry`.  The hardware read cycle (write the
index + ACTION read + START_FINISH to the control register, poll until
START_FINISH clears, then read the four entry registers) is modelled as
directly returning the four words stored at the slot; the decoding of
the words follows the C body. -/
def ksz9477GetStaticFdbEntry (table : Nat → Ksz9477StaticRecord)
    (index : Nat) : Except error_t SwitchFdbEntry :=
  if index < KSZ9477_STATIC_MAC_TABLE_SIZE then
    if (table index).entry1 &&& KSZ9477_STATIC_TABLE_ENTRY1_VALID ≠ 0 then
      Except.ok
        { macAddr :=
            { b0 := ((table index).entry3 >>> 8) &&& 0xFF
              b1 := (table index).entry3 &&& 0xFF
              b2 := ((table index).entry4 >>> 24) &&& 0xFF
              b3 := ((table index).entry4 >>> 16) &&& 0xFF
              b4 := ((table index).entry4 >>> 8) &&& 0xFF
              b5 := (table index).entry4 &&& 0xFF }
          srcPort := 0
          destPorts := (table index).entry2 &&& KSZ9477_STATIC_TABLE_ENTRY2_PORT_FORWARD
          override :=
            (table index).entry2 &&& KSZ9477_STATIC_TABLE_ENTRY2_OVERRIDE != 0 }
    else
      Except.error error_t.invalidEntry
  else
    Except.error error_t.endOfTable

/-- The four words `ksz9477AddStaticFdbEntry` writes for an entry: valid
bit, forward-port bitmap (with the CPU-port alias mapped to port 6) plus
override bit, and the MAC address split over two words. -/
def ksz9477StaticEntryRecord (entry : SwitchFdbEntry) : Ksz9477StaticRecord :=
  { entry1 := KSZ9477_STATIC_TABLE_ENTRY1_VALID
    entry2 :=
      (if entry.destPorts = SWITCH_CPU_PORT_MASK then KSZ9477_PORT6_MASK
       else entry.destPorts &&& KSZ9477_PORT_MASK) |||
      (if entry.override then KSZ9477_STATIC_TABLE_ENTRY2_OVERRIDE else 0)
    entry3 := (entry.macAddr.b0 <<< 8) ||| entry.macAddr.b1
    entry4 := (entry.macAddr.b2 <<< 24) ||| (entry.macAddr.b3 <<< 16) |||
      (entry.macAddr.b4 <<< 8) ||| entry.macAddr.b5 }

/-- The slot-search loop of `ksz9477AddStaticFdbEntry`: `i` is the loop
index, `j` the best slot so far (`KSZ9477_STATIC_MAC_TABLE_SIZE` while
none found).  A slot holding the same address ends the search at once;
the first free (invalid) slot is remembered in `j`.  The loop
`for(i = 0; i < KSZ9477_STATIC_MAC_TABLE_SIZE; i++)` is translated with
a structural `fuel` that counts the iterations still permitted
(`fuel = KSZ9477_STATIC_MAC_TABLE_SIZE - i` at every real call). -/
def ksz9477StaticScan (table : Nat → Ksz9477StaticRecord) (addr : MacAddr) :
    Nat → Nat → Nat → Nat
  | 0, _, j => j
  | fuel + 1, i, j =>
    if i < KSZ9477_STATIC_MAC_TABLE_SIZE then
      match ksz9477GetStaticFdbEntry table i with
      | Except.ok cur =>
          if cur.macAddr = addr then i
          else ksz9477StaticScan table addr fuel (i + 1) j
      | Except.error _ =>
          if j = KSZ9477_STATIC_MAC_TABLE_SIZE then
            ksz9477StaticScan table addr fuel (i + 1) i
          else
            ksz9477StaticScan table addr fuel (i + 1) j
    else
      j

/-- `ksz9477AddStaticFdbEntry`: scan for a matching or free slot; on
success write the encoded record there (the write cycle and
START_FINISH poll are modelled as storing the four words) and return the
new table with the written index; otherwise report a full table. -/
def ksz9477AddStaticFdbEntry (table : Nat → Ksz9477StaticRecord)
    (entry : SwitchFdbEntry) :
    Except error_t ((Nat → Ksz9477StaticRecord) × Nat) :=
  if ksz9477StaticScan table entry.macAddr KSZ9477_STATIC_MAC_TABLE_SIZE 0
      KSZ9477_STATIC_MAC_TABLE_SIZE < KSZ9477_STATIC_MAC_TABLE_SIZE then
    Except.ok
      (updFn table
        (ksz9477StaticScan table entry.macAddr KSZ9477_STATIC_MAC_TABLE_SIZE 0
          KSZ9477_STATIC_MAC_TABLE_SIZE)
        (ksz9477StaticEntryRecord entry),
       ksz9477StaticScan table entry.macAddr KSZ9477_STATIC_MAC_TABLE_SIZE 0
         KSZ9477_STATIC_MAC_TABLE_SIZE)
  else
    Except.error error_t.tableFull

/-- A slot's valid bit, as the scan sees it. -/
def ksz9477StaticValidAt (table : Nat → Ksz9477StaticRecord) (i : Nat) : Prop :=
  (table i).entry1 &&& KSZ9477_STATIC_TABLE_ENTRY1_VALID ≠ 0

instance (table : Nat → Ksz9477StaticRecord) (i : Nat) :
    Decidable (ksz9477StaticValidAt table i) := by
  unfold ksz9477StaticValidAt
  infer_instance

/-- The MAC address decoded from a slot's words. -/
def ksz9477StaticAddrAt (table : Nat → Ksz9477StaticRecord) (i : Nat) : MacAddr :=
  { b0 := ((table i).entry3 >>> 8) &&& 0xFF
    b1 := (table i).entry3 &&& 0xFF
    b2 := ((table i).entry4 >>> 24) &&& 0xFF
    b3 := ((table i).entry4 >>> 16) &&& 0xFF
    b4 := ((table i).entry4 >>> 8) &&& 0xFF
    b5 := (table i).entry4 &&& 0xFF }

/-- A slot matches an address when it is valid and decodes to it. -/
def ksz9477StaticMatchAt (table : Nat → Ksz9477StaticRecord) (addr : MacAddr)
    (i : Nat) : Prop :=
  ksz9477StaticValidAt table i ∧ ksz9477StaticAddrAt table i = addr

instance (table : Nat → Ksz9477StaticRecord) (addr : MacAddr) (i : Nat) :
    Decidable (ksz9477StaticMatchAt table addr i) := by
  unfold ksz9477StaticMatchAt
  infer_instance

/-! ## KSZ9477 switch driver: dynamic MAC table (ALU search) -/

/-- Modelled from the spec: ALU Table Access Control register bits
(`ksz9477.h`, not in the source extract). -/
def KSZ9477_ALU_TABLE_CTRL_START_FINISH : Nat := 0x80000000

def KSZ9477_ALU_TABLE_CTRL_ACTION_SEARCH : Nat := 0x00000004

def KSZ9477_ALU_TABLE_CTRL_VALID : Nat := 0x40000000

def KSZ9477_ALU_TABLE_CTRL_VALID_ENTRY_OR_SEARCH_END : Nat := 0x20000000

def KSZ9477_ALU_TABLE_ENTRY2_PORT_FORWARD : Nat := 0x7F

/-- The four ALU Table Entry words of one search result. -/
structure Ksz9477AluRecord where
  entry1 : Nat
  entry2 : Nat
  entry3 : Nat
  entry4 : Nat
  deriving DecidableEq, Repr

/-- Modelled from the spec: the hardware search engine as seen through
the ALU control register: the control word the driver last wrote, the
entries the running search has not yet delivered, and the full learned
table a fresh search will walk.  "Dynamic entries are read-only,
enumerated via a hardware search cursor that is implicitly stateful
(starting a new search resets it)". -/
structure Ksz9477AluState where
  ctrl : Nat
  queue : List Ksz9477AluRecord
  table : List Ksz9477AluRecord
  deriving Repr

/-- Modelled from the spec: a control-register write.  A word with the
START_FINISH bit starts a search over the whole learned table; any other
word (the driver only ever writes 0) stops the engine. -/
def ksz9477AluWriteCtrl (s : Ksz9477AluState) (v : Nat) : Ksz9477AluState :=
  if v &&& KSZ9477_ALU_TABLE_CTRL_START_FINISH ≠ 0 then
    { s with ctrl := v, queue := s.table }
  else
    { s with ctrl := v, queue := [] }

/-- Modelled from the spec: a polled control-register read.  While a
search is active the VALID_ENTRY_OR_SEARCH_END bit is raised, with VALID
set as long as an undelivered entry remains; an idle engine reports
neither. -/
def ksz9477AluReadCtrl (s : Ksz9477AluState) : Nat :=
  if s.ctrl &&& KSZ9477_ALU_TABLE_CTRL_START_FINISH ≠ 0 then
    if s.queue.isEmpty then
      s.ctrl ||| KSZ9477_ALU_TABLE_CTRL_VALID_ENTRY_OR_SEARCH_END
    else
      s.ctrl ||| KSZ9477_ALU_TABLE_CTRL_VALID_ENTRY_OR_SEARCH_END |||
        KSZ9477_ALU_TABLE_CTRL_VALID
  else
    s.ctrl

/-- Decoding of one delivered ALU record (`ksz9477GetDynamicFdbEntry`
body): the `switch` over the port-forward field selects the source port,
the MAC address is split over entry words 3 and 4. -/
def ksz9477AluDecode (r : Ksz9477AluRecord) : SwitchFdbEntry :=
  { destPorts := 0
    override := false
    srcPort :=
      if r.entry2 &&& KSZ9477_ALU_TABLE_ENTRY2_PORT_FORWARD = 0x01 then 1
      else if r.entry2 &&& KSZ9477_ALU_TABLE_ENTRY2_PORT_FORWARD = 0x02 then 2
      else if r.entry2 &&& KSZ9477_ALU_TABLE_ENTRY2_PORT_FORWARD = 0x04 then 3
      else if r.entry2 &&& KSZ9477_ALU_TABLE_ENTRY2_PORT_FORWARD = 0x08 then 4
      else if r.entry2 &&& KSZ9477_ALU_TABLE_ENTRY2_PORT_FORWARD = 0x10 then 5
      else if r.entry2 &&& KSZ9477_ALU_TABLE_ENTRY2_PORT_FORWARD = 0x20 then 6
      else if r.entry2 &&& KSZ9477_ALU_TABLE_ENTRY2_PORT_FORWARD = 0x40 then 7
      else 0
    macAddr :=
      { b0 := (r.entry3 >>> 8) &&& 0xFF
        b1 := r.entry3 &&& 0xFF
        b2 := (r.entry4 >>> 24) &&& 0xFF
        b3 := (r.entry4 >>> 16) &&& 0xFF
        b4 := (r.entry4 >>> 8) &&& 0xFF
        b5 := r.entry4 &&& 0xFF } }

/-- `ksz9477GetDynamicFdbEntry` against the modelled search engine.
Index 0 first clears the control register, then starts a fresh search.
The do/while poll loop is total only when the engine raises
VALID_ENTRY_OR_SEARCH_END; a call that would poll forever is `none`.
On VALID the next queued record is decoded (reading the entry registers
consumes it); otherwise the engine is stopped by writing 0 and
`endOfTable` is returned. -/
def ksz9477GetDynamicFdbEntry (s : Ksz9477AluState) (index : Nat) :
    Option (Except error_t SwitchFdbEntry × Ksz9477AluState) :=
  let s1 := if index = 0 then
      ksz9477AluWriteCtrl (ksz9477AluWriteCtrl s 0)
        (KSZ9477_ALU_TABLE_CTRL_START_FINISH |||
          KSZ9477_ALU_TABLE_CTRL_ACTION_SEARCH)
    else s
  if ksz9477AluReadCtrl s1 &&&
      KSZ9477_ALU_TABLE_CTRL_VALID_ENTRY_OR_SEARCH_END = 0 then
    none
  else if ksz9477AluReadCtrl s1 &&& KSZ9477_ALU_TABLE_CTRL_VALID ≠ 0 then
    match s1.queue with
    | r :: rest => some (Except.ok (ksz9477AluDecode r), { s1 with queue := rest })
    | [] => none
  else
    some (Except.error error_t.endOfTable, ksz9477AluWriteCtrl s1 0)

/-! ## KSZ9477 aging time and tail-tag stripping -/

/-- `ksz9477SetAgingTime`: the byte written to the Switch Lookup Engine
Control 3 register.  `agingTime` is a C `uint32_t`, so the `+ 3` wraps
modulo `2 ^ 32`; `MIN(agingTime, 255)` then clamps, and the `uint8_t`
cast is exact on the clamped value. -/
def ksz9477SetAgingTime (agingTime : Nat) : Nat :=
  min ((agingTime % UINT32_LIMIT + 3) % UINT32_LIMIT / 4) 255 % 256

/-- Modelled from the spec: `sizeof(EthHeader)` of `core/ethernet.h`
(6-byte destination + 6-byte source + 2-byte type), not in the source
extract. -/
def ETH_HEADER_SIZE : Nat := 14

/-- Modelled from the spec: the source-port field of the one-byte
receive tail tag (`ksz9477.h`, not in the source extract): the low bits
carrying the ingress port number. -/
def KSZ9477_TAIL_TAG_SRC_PORT : Nat := 0x07

/-- `ksz9477UntagFrame` in SPI mode with port tagging enabled: a frame
of at least `sizeof(EthHeader) + 1` bytes has its final byte read as the
tail tag (`ancillary->port = (*tailTag & KSZ9477_TAIL_TAG_SRC_PORT) + 1`)
and stripped (`*length -= sizeof(uint8_t)`); anything shorter is dropped
with `ERROR_INVALID_LENGTH`, the frame untouched. -/
def ksz9477UntagFrame (frame : List Nat) :
    Except error_t (List Nat × Nat) :=
  if frame.length ≥ ETH_HEADER_SIZE + 1 then
    Except.ok (frame.take (frame.length - 1),
      (frame.getD (frame.length - 1) 0 &&& KSZ9477_TAIL_TAG_SRC_PORT) + 1)
  else
    Except.error error_t.invalidLength

/-! ## Theorems -/

/-- C1: after `msp432e4EthInitDmaDesc`, for any configured ring sizes
(each ≥ 1), exactly the last descriptor of each ring links back to
descriptor 0, every receive descriptor starts hardware-owned (OWN set)
and every transmit descriptor starts software-owned (OWN clear). -/
theorem msp432e4EthInitDmaDesc_ring_closure_and_ownership
    (txCount rxCount : Nat) (htx : 1 ≤ txCount) (hrx : 1 ≤ rxCount) :
    (∀ i, i < txCount →
      ((msp432e4EthInitDmaDescTx txCount i).tdes3 = 0 ↔ i = txCount - 1)) ∧
    (∀ i, i < rxCount →
      ((msp432e4EthInitDmaDescRx rxCount i).rdes3 = 0 ↔ i = rxCount - 1)) ∧
    (∀ i, i < rxCount →
      (msp432e4EthInitDmaDescRx rxCount i).rdes0 &&& EMAC_RDES0_OWN ≠ 0) ∧
    (∀ i, i < txCount →
      (msp432e4EthInitDmaDescTx txCount i).tdes0 &&& EMAC_TDES0_OWN = 0) := by
  refine ⟨?_, ?_, ?_, ?_⟩
  · intro i hi
    unfold msp432e4EthInitDmaDescTx updFn
    by_cases h : i = txCount - 1
    · simp [h]
    · simp [h, msp432e4TxDescLoopBody]
  · intro i hi
    unfold msp432e4EthInitDmaDescRx updFn
    by_cases h : i = rxCount - 1
    · simp [h]
    · simp [h, msp432e4RxDescLoopBody]
  · intro i hi
    unfold msp432e4EthInitDmaDescRx updFn
    by_cases h : i = rxCount - 1 <;>
      simp [h, msp432e4RxDescLoopBody, EMAC_RDES0_OWN]
  · intro i hi
    unfold msp432e4EthInitDmaDescTx updFn
    by_cases h : i = txCount - 1
    · rw [if_pos h]; simp only [msp432e4TxDescLoopBody]; decide
    · rw [if_neg h]; simp only [msp432e4TxDescLoopBody]; decide

/-- Witness for C1 at the concrete ring sizes 3 (TX) and 6 (RX). -/
theorem msp432e4EthInitDmaDesc_ring_closure_and_ownership_witness :
    (∀ i, i < 3 → ((msp432e4EthInitDmaDescTx 3 i).tdes3 = 0 ↔ i = 3 - 1)) ∧
    (∀ i, i < 6 → ((msp432e4EthInitDmaDescRx 6 i).rdes3 = 0 ↔ i = 6 - 1)) ∧
    (∀ i, i < 6 → (msp432e4EthInitDmaDescRx 6 i).rdes0 &&& EMAC_RDES0_OWN ≠ 0) ∧
    (∀ i, i < 3 → (msp432e4EthInitDmaDescTx 3 i).tdes0 &&& EMAC_TDES0_OWN = 0) :=
  msp432e4EthInitDmaDesc_ring_closure_and_ownership 3 6 (by decide) (by decide)

/-- C2, counterexample: with the current TX descriptor still
hardware-owned, `msp432e4EthSendPacket` returns the failure status
*without* setting `nicTxEvent`, contradicting the claim that every
error return re-asserts the transmitter-ready event. -/
theorem msp432e4EthSendPacket_busy_no_event :
    (msp432e4EthSendPacket
      (mspTestState { txZeroDesc with tdes0 := EMAC_TDES0_OWN } rxZeroDesc)
      []).1 = error_t.failure ∧
    (msp432e4EthSendPacket
      (mspTestState { txZeroDesc with tdes0 := EMAC_TDES0_OWN } rxZeroDesc)
      []).2.nicTxEvent = false := by
  constructor <;> rfl

/-- C2 (amended): of the two error returns of the packet-send
operation, only the oversized-payload path re-asserts `nicTxEvent`
(returning `invalidLength`); the path where the current
descriptor/buffer is still hardware-owned returns the busy/failure
status with the whole state — the event included — unchanged.  This
holds for both `msp432e4EthSendPacket` and `w5100sSendPacket`. -/
theorem sendPacket_error_paths
    (s : Msp432e4State) (w : W5100sState) (data wdata : List Nat) :
    (data.length > MSP432E4_ETH_TX_BUFFER_SIZE →
      msp432e4EthSendPacket s data =
        (error_t.invalidLength, { s with nicTxEvent := true })) ∧
    (data.length ≤ MSP432E4_ETH_TX_BUFFER_SIZE →
      (s.txRing s.txCur).tdes0 &&& EMAC_TDES0_OWN ≠ 0 →
      msp432e4EthSendPacket s data = (error_t.failure, s)) ∧
    (wdata.length > ETH_MAX_FRAME_SIZE →
      w5100sSendPacket w wdata =
        (error_t.invalidLength, { w with nicTxEvent := true })) ∧
    (wdata.length ≤ ETH_MAX_FRAME_SIZE →
      w.txFreeSize < wdata.length →
      w5100sSendPacket w wdata = (error_t.failure, w)) := by
  refine ⟨?_, ?_, ?_, ?_⟩
  · intro h
    simp [msp432e4EthSendPacket, h]
  · intro h hown
    simp [msp432e4EthSendPacket, Nat.not_lt.mpr h, hown]
  · intro h
    simp [w5100sSendPacket, h]
  · intro h hfree
    simp [w5100sSendPacket, Nat.not_lt.mpr h, hfree]

/-- Witness for the amended C2 at concrete states: an oversized payload
sets the event, a hardware-owned descriptor yields an unchanged-state
failure, for both drivers. -/
theorem sendPacket_error_paths_witness :
    (msp432e4EthSendPacket
        (mspTestState { txZeroDesc with tdes0 := EMAC_TDES0_OWN } rxZeroDesc)
        (List.replicate 1537 0) =
      (error_t.invalidLength,
        { mspTestState { txZeroDesc with tdes0 := EMAC_TDES0_OWN } rxZeroDesc
            with nicTxEvent := true })) ∧
    (msp432e4EthSendPacket
        (mspTestState { txZeroDesc with tdes0 := EMAC_TDES0_OWN } rxZeroDesc)
        [] =
      (error_t.failure,
        mspTestState { txZeroDesc with tdes0 := EMAC_TDES0_OWN } rxZeroDesc)) ∧
    (w5100sSendPacket { txFreeSize := 0, txData := [], nicTxEvent := false }
        (List.replicate 1519 0) =
      (error_t.invalidLength,
        { txFreeSize := 0, txData := [], nicTxEvent := true })) ∧
    (w5100sSendPacket { txFreeSize := 0, txData := [], nicTxEvent := false }
        [7] =
      (error_t.failure, { txFreeSize := 0, txData := [], nicTxEvent := false })) := by
  have h := sendPacket_error_paths
    (mspTestState { txZeroDesc with tdes0 := EMAC_TDES0_OWN } rxZeroDesc)
    { txFreeSize := 0, txData := [], nicTxEvent := false }
    (List.replicate 1537 0) []
  have h' := sendPacket_error_paths
    (mspTestState { txZeroDesc with tdes0 := EMAC_TDES0_OWN } rxZeroDesc)
    { txFreeSize := 0, txData := [], nicTxEvent := false }
    [] (List.replicate 1519 0)
  have h'' := sendPacket_error_paths
    (mspTestState { txZeroDesc with tdes0 := EMAC_TDES0_OWN } rxZeroDesc)
    { txFreeSize := 0, txData := [], nicTxEvent := false }
    [] [7]
  exact ⟨h.1 (by simp [MSP432E4_ETH_TX_BUFFER_SIZE]),
    h'.2.1 (by decide) (by decide),
    h'.2.2.1 (by simp [ETH_MAX_FRAME_SIZE]),
    h''.2.2.2 (by decide) (by decide)⟩

/-- C3: whenever the current receive descriptor is software-owned,
`msp432e4EthReceivePacket` re-arms it as hardware-owned and advances the
software cursor to the descriptor linked by `rdes3`, on every path —
valid frame, missing first/last-segment flags, or hardware error flag
set. -/
theorem msp432e4EthReceivePacket_rearms_and_advances
    (s : Msp432e4State)
    (h : (s.rxRing s.rxCur).rdes0 &&& EMAC_RDES0_OWN = 0) :
    (msp432e4EthReceivePacket s).2.rxRing s.rxCur =
      { s.rxRing s.rxCur with rdes0 := EMAC_RDES0_OWN } ∧
    (msp432e4EthReceivePacket s).2.rxCur = (s.rxRing s.rxCur).rdes3 := by
  unfold msp432e4EthReceivePacket
  simp only [h, if_true]
  by_cases hfl : (s.rxRing s.rxCur).rdes0 &&& EMAC_RDES0_FS ≠ 0 ∧
      (s.rxRing s.rxCur).rdes0 &&& EMAC_RDES0_LS ≠ 0
  · by_cases hes : (s.rxRing s.rxCur).rdes0 &&& EMAC_RDES0_ES = 0 <;>
      simp [hfl, hes, updFn]
  · simp [hfl, updFn]

/-- Witness for C3 at a concrete state whose current descriptor is
software-owned and carries the hardware error flag (the corrupt-frame
path): it is still re-armed and the cursor still advances. -/
theorem msp432e4EthReceivePacket_rearms_and_advances_witness :
    ((mspTestState txZeroDesc
        { rxZeroDesc with rdes0 := EMAC_RDES0_ES, rdes3 := 1 }).rxRing
          (mspTestState txZeroDesc
            { rxZeroDesc with rdes0 := EMAC_RDES0_ES, rdes3 := 1 }).rxCur).rdes0
        &&& EMAC_RDES0_OWN = 0 ∧
    ((msp432e4EthReceivePacket (mspTestState txZeroDesc
        { rxZeroDesc with rdes0 := EMAC_RDES0_ES, rdes3 := 1 })).2.rxRing
          (mspTestState txZeroDesc
            { rxZeroDesc with rdes0 := EMAC_RDES0_ES, rdes3 := 1 }).rxCur =
      { (mspTestState txZeroDesc
          { rxZeroDesc with rdes0 := EMAC_RDES0_ES, rdes3 := 1 }).rxRing
            (mspTestState txZeroDesc
              { rxZeroDesc with rdes0 := EMAC_RDES0_ES, rdes3 := 1 }).rxCur
          with rdes0 := EMAC_RDES0_OWN } ∧
      (msp432e4EthReceivePacket (mspTestState txZeroDesc
        { rxZeroDesc with rdes0 := EMAC_RDES0_ES, rdes3 := 1 })).2.rxCur =
        ((mspTestState txZeroDesc
          { rxZeroDesc with rdes0 := EMAC_RDES0_ES, rdes3 := 1 }).rxRing
            (mspTestState txZeroDesc
              { rxZeroDesc with rdes0 := EMAC_RDES0_ES, rdes3 := 1 }).rxCur).rdes3) :=
  ⟨by decide,
    msp432e4EthReceivePacket_rearms_and_advances
      (mspTestState txZeroDesc
        { rxZeroDesc with rdes0 := EMAC_RDES0_ES, rdes3 := 1 })
      (by decide)⟩

/-- C4: when every receive descriptor is still hardware-owned,
`msp432e4EthReceivePacket` returns `bufferEmpty`, leaves the receive
cursor where it was and does not modify any descriptor field. -/
theorem msp432e4EthReceivePacket_empty_ring
    (s : Msp432e4State)
    (h : ∀ i, (s.rxRing i).rdes0 &&& EMAC_RDES0_OWN ≠ 0) :
    (msp432e4EthReceivePacket s).1 = error_t.bufferEmpty ∧
    (msp432e4EthReceivePacket s).2.rxRing = s.rxRing ∧
    (msp432e4EthReceivePacket s).2.rxCur = s.rxCur := by
  unfold msp432e4EthReceivePacket
  simp [h s.rxCur]

/-- Witness for C4 at a concrete all-hardware-owned ring. -/
theorem msp432e4EthReceivePacket_empty_ring_witness :
    (msp432e4EthReceivePacket
        (mspTestState txZeroDesc { rxZeroDesc with rdes0 := EMAC_RDES0_OWN })).1 =
      error_t.bufferEmpty ∧
    (msp432e4EthReceivePacket
        (mspTestState txZeroDesc { rxZeroDesc with rdes0 := EMAC_RDES0_OWN })).2.rxRing =
      (mspTestState txZeroDesc { rxZeroDesc with rdes0 := EMAC_RDES0_OWN }).rxRing ∧
    (msp432e4EthReceivePacket
        (mspTestState txZeroDesc { rxZeroDesc with rdes0 := EMAC_RDES0_OWN })).2.rxCur =
      (mspTestState txZeroDesc { rxZeroDesc with rdes0 := EMAC_RDES0_OWN }).rxCur :=
  msp432e4EthReceivePacket_empty_ring
    (mspTestState txZeroDesc { rxZeroDesc with rdes0 := EMAC_RDES0_OWN })
    (fun _ => by simp [mspTestState, rxZeroDesc, EMAC_RDES0_OWN])

/-- The driver's bit-loop iteration agrees with the spec-worded
polynomial round fed the extracted bit. -/
theorem msp432e4EthCrcStep_eq (c x : Nat) :
    msp432e4EthCrcStep c x = crc32SpecRound c (x &&& 0x01) := by
  unfold msp432e4EthCrcStep crc32SpecRound
  have h : ((c >>> 31) ^^^ x) &&& 0x01 =
      ((c >>> 31) ^^^ (x &&& 0x01)) &&& 0x01 := by
    rw [Nat.and_xor_distrib_right, Nat.and_xor_distrib_right, Nat.and_assoc,
      Nat.and_self]
  rw [h]

/-- The driver's byte loop equals folding the round over the byte's bits
least-significant first. -/
theorem msp432e4EthCrcByte_eq (c byte : Nat) :
    msp432e4EthCrcByte c byte = (byteBitsLsbFirst byte).foldl crc32SpecRound c := by
  unfold msp432e4EthCrcByte byteBitsLsbFirst
  rw [List.foldl_map]
  simp only [msp432e4EthCrcStep_eq]

/-- The driver's nested loops equal one fold over the flattened bit
stream. -/
theorem msp432e4EthCrc_foldl_eq (data : List Nat) :
    ∀ c, data.foldl msp432e4EthCrcByte c =
      (data.flatMap byteBitsLsbFirst).foldl crc32SpecRound c := by
  induction data with
  | nil =>
    intro c
    rw [List.flatMap_nil, List.foldl_nil, List.foldl_nil]
  | cons b rest ih =>
    intro c
    rw [List.foldl_cons, List.flatMap_cons, List.foldl_append,
      msp432e4EthCrcByte_eq]
    exact ih _

/-- C5: `msp432e4EthCalcCrc` is the degree-32 CRC with polynomial
`0x04C11DB7`, all-ones preset and inverted output over the message bits;
on the vendor-documented test vector `1F:52:41:9C:B6:AF` the upper-6-bit
hash index is the documented `0x2C`; and for a multicast address the
filter sets exactly bit `k % 32` of hash-table word `k / 32`, `k < 64`
being the 6-bit index. -/
theorem msp432e4EthCalcCrc_spec :
    (∀ data, msp432e4EthCalcCrc data = crc32Spec data) ∧
    msp432e4EthHashIndexOfCrc
      (msp432e4EthCalcCrc [0x1F, 0x52, 0x41, 0x9C, 0xB6, 0xAF]) = 0x2C ∧
    (∀ a : MacAddr, macIsMulticastAddr a = true →
      msp432e4EthHashIndex a < 64 ∧
      (msp432e4EthUpdateMacAddrFilter [{ addr := a, refCount := 1 }]).hashTable
          (msp432e4EthHashIndex a / 32) =
        1 <<< (msp432e4EthHashIndex a % 32)) := by
  refine ⟨?_, by decide, ?_⟩
  · intro data
    unfold msp432e4EthCalcCrc crc32Spec
    rw [msp432e4EthCrc_foldl_eq]
  · intro a hmul
    constructor
    · have h : msp432e4EthHashIndex a ≤ 0x3F := Nat.and_le_right
      omega
    · unfold msp432e4EthUpdateMacAddrFilter msp432e4EthFilterStep
      simp [hmul, updFn]

/-- Witness for C5 at the multicast address `01:00:5E:00:00:01`. -/
theorem msp432e4EthCalcCrc_spec_witness :
    macIsMulticastAddr ⟨0x01, 0x00, 0x5E, 0x00, 0x00, 0x01⟩ = true ∧
    (msp432e4EthHashIndex ⟨0x01, 0x00, 0x5E, 0x00, 0x00, 0x01⟩ < 64 ∧
    (msp432e4EthUpdateMacAddrFilter
        [{ addr := ⟨0x01, 0x00, 0x5E, 0x00, 0x00, 0x01⟩, refCount := 1 }]).hashTable
        (msp432e4EthHashIndex ⟨0x01, 0x00, 0x5E, 0x00, 0x00, 0x01⟩ / 32) =
      1 <<< (msp432e4EthHashIndex ⟨0x01, 0x00, 0x5E, 0x00, 0x00, 0x01⟩ % 32)) :=
  ⟨by decide, msp432e4EthCalcCrc_spec.2.2 ⟨0x01, 0x00, 0x5E, 0x00, 0x00, 0x01⟩ (by decide)⟩

/-- A filter-loop iteration never clears a hash-table bit. -/
theorem msp432e4EthFilterStep_hash_mono (acc : FilterAcc)
    (e : MacFilterEntry) (w k : Nat) (h : (acc.hashTable w).testBit k = true) :
    ((msp432e4EthFilterStep acc e).hashTable w).testBit k = true := by
  unfold msp432e4EthFilterStep
  by_cases h1 : e.refCount > 0
  · rw [if_pos h1]
    by_cases h2 : macIsMulticastAddr e.addr = true
    · rw [if_pos h2]
      show ((updFn acc.hashTable _ _) w).testBit k = true
      unfold updFn
      by_cases hw : w = msp432e4EthHashIndex e.addr / 32
      · rw [if_pos hw, Nat.testBit_lor, ← hw, h, Bool.true_or]
      · rw [if_neg hw]
        exact h
    · rw [if_neg h2]
      by_cases h3 : acc.unicast.length < 3
      · rw [if_pos h3]
        exact h
      · rw [if_neg h3]
        exact h
  · rw [if_neg h1]
    exact h

/-- Bits already set in the hash table survive the rest of the
filter-programming loop. -/
theorem msp432e4EthFilterFold_hash_mono (l : List MacFilterEntry) :
    ∀ (acc : FilterAcc) (w k : Nat), (acc.hashTable w).testBit k = true →
      ((l.foldl msp432e4EthFilterStep acc).hashTable w).testBit k = true := by
  induction l with
  | nil => intro acc w k h; exact h
  | cons e rest ih =>
    intro acc w k h
    exact ih _ w k (msp432e4EthFilterStep_hash_mono acc e w k h)

/-- Processing an active multicast entry sets its hash bit. -/
theorem msp432e4EthFilterStep_multicast_bit (acc : FilterAcc)
    (e : MacFilterEntry) (hact : 0 < e.refCount)
    (hmul : macIsMulticastAddr e.addr = true) :
    ((msp432e4EthFilterStep acc e).hashTable
        (msp432e4EthHashIndex e.addr / 32)).testBit
      (msp432e4EthHashIndex e.addr % 32) = true := by
  unfold msp432e4EthFilterStep
  rw [if_pos hact, if_pos hmul]
  show ((updFn acc.hashTable _ _) (msp432e4EthHashIndex e.addr / 32)).testBit _ = true
  unfold updFn
  rw [if_pos rfl, Nat.testBit_lor, Nat.testBit_shiftLeft]
  simp

/-- Every active multicast entry of the filter table ends with its hash
bit set. -/
theorem msp432e4EthFilterFold_multicast (l : List MacFilterEntry) :
    ∀ (acc : FilterAcc), ∀ e ∈ l, 0 < e.refCount →
      macIsMulticastAddr e.addr = true →
      ((l.foldl msp432e4EthFilterStep acc).hashTable
          (msp432e4EthHashIndex e.addr / 32)).testBit
        (msp432e4EthHashIndex e.addr % 32) = true := by
  induction l with
  | nil => intro acc e he; cases he
  | cons f rest ih =>
    intro acc e he hact hmul
    rcases List.mem_cons.mp he with rfl | he'
    · exact msp432e4EthFilterFold_hash_mono rest _ _ _
        (msp432e4EthFilterStep_multicast_bit acc e hact hmul)
    · exact ih _ e he' hact hmul

/-- The unicast accumulator collects the active unicast addresses in
table order, capped at the three perfect-filter slots. -/
theorem msp432e4EthFilterFold_unicast (l : List MacFilterEntry) :
    ∀ (acc : FilterAcc), acc.unicast.length ≤ 3 →
      (l.foldl msp432e4EthFilterStep acc).unicast =
        (acc.unicast ++ activeUnicastAddrs l).take 3 := by
  induction l with
  | nil =>
    intro acc h
    have hau : activeUnicastAddrs [] = [] := rfl
    rw [List.foldl_nil, hau, List.append_nil, List.take_of_length_le h]
  | cons e rest ih =>
    intro acc h
    rw [List.foldl_cons]
    by_cases h1 : e.refCount > 0
    · by_cases h2 : macIsMulticastAddr e.addr = true
      · have hstep : (msp432e4EthFilterStep acc e).unicast = acc.unicast := by
          unfold msp432e4EthFilterStep
          rw [if_pos h1, if_pos h2]
        have hau : activeUnicastAddrs (e :: rest) = activeUnicastAddrs rest := by
          unfold activeUnicastAddrs
          simp [h1, h2]
        rw [ih _ (by rw [hstep]; exact h), hstep, hau]
      · by_cases h3 : acc.unicast.length < 3
        · have hstep : (msp432e4EthFilterStep acc e).unicast =
              acc.unicast ++ [e.addr] := by
            unfold msp432e4EthFilterStep
            rw [if_pos h1, if_neg h2, if_pos h3]
          have hlen : (msp432e4EthFilterStep acc e).unicast.length ≤ 3 := by
            rw [hstep, List.length_append]
            simp only [List.length_cons, List.length_nil]
            omega
          have hau : activeUnicastAddrs (e :: rest) =
              e.addr :: activeUnicastAddrs rest := by
            unfold activeUnicastAddrs
            simp [h1, h2]
          rw [ih _ hlen, hstep, hau, List.append_assoc, List.singleton_append]
        · have hstep : (msp432e4EthFilterStep acc e).unicast = acc.unicast := by
            unfold msp432e4EthFilterStep
            rw [if_pos h1, if_neg h2, if_neg h3]
          have hlen3 : acc.unicast.length = 3 := by omega
          have hau : activeUnicastAddrs (e :: rest) =
              e.addr :: activeUnicastAddrs rest := by
            unfold activeUnicastAddrs
            simp [h1, h2]
          rw [ih _ (by rw [hstep]; exact h), hstep, hau,
            List.take_append_eq_append_take, List.take_append_eq_append_take]
          simp [hlen3]
    · have hstep : msp432e4EthFilterStep acc e = acc := by
        unfold msp432e4EthFilterStep
        rw [if_neg h1]
      have hau : activeUnicastAddrs (e :: rest) = activeUnicastAddrs rest := by
        unfold activeUnicastAddrs
        simp [h1]
      rw [hstep, hau]
      exact ih _ h

/-- C6, counterexample: with four active unicast addresses in the
filter, the fourth occupies no perfect-match slot and sets no hash bit —
it is silently dropped, not folded into the multicast hash table. -/
theorem msp432e4EthUpdateMacAddrFilter_fourth_unicast_unmatched :
    ¬ macAddrMatchedByFilter
        (msp432e4EthUpdateMacAddrFilter
          [{ addr := ⟨0, 0, 0, 0, 0, 1⟩, refCount := 1 },
           { addr := ⟨0, 0, 0, 0, 0, 2⟩, refCount := 1 },
           { addr := ⟨0, 0, 0, 0, 0, 3⟩, refCount := 1 },
           { addr := ⟨0, 0, 0, 0, 0, 4⟩, refCount := 1 }])
        ⟨0, 0, 0, 0, 0, 4⟩ ∧
    (msp432e4EthUpdateMacAddrFilter
          [{ addr := ⟨0, 0, 0, 0, 0, 1⟩, refCount := 1 },
           { addr := ⟨0, 0, 0, 0, 0, 2⟩, refCount := 1 },
           { addr := ⟨0, 0, 0, 0, 0, 3⟩, refCount := 1 },
           { addr := ⟨0, 0, 0, 0, 0, 4⟩, refCount := 1 }]).unicast =
      [⟨0, 0, 0, 0, 0, 1⟩, ⟨0, 0, 0, 0, 0, 2⟩, ⟨0, 0, 0, 0, 0, 3⟩] := by
  constructor
  · decide
  · decide

/-- C6 (amended): overflowing the three unicast perfect-match slots is
not an error, but the overflowed unicast addresses are silently ignored
rather than hash-promoted: the programmed slots are exactly the first
three active unicast addresses, and every active *multicast* address is
matched through the hash table. -/
theorem msp432e4EthUpdateMacAddrFilter_partition (filter : List MacFilterEntry) :
    (msp432e4EthUpdateMacAddrFilter filter).unicast =
      (activeUnicastAddrs filter).take 3 ∧
    ∀ e ∈ filter, 0 < e.refCount → macIsMulticastAddr e.addr = true →
      macAddrMatchedByFilter (msp432e4EthUpdateMacAddrFilter filter) e.addr := by
  constructor
  · exact msp432e4EthFilterFold_unicast filter _ (by simp)
  · intro e he hact hmul
    exact Or.inr (msp432e4EthFilterFold_multicast filter _ e he hact hmul)

/-- Witness for the amended C6 on a concrete mixed filter table. -/
theorem msp432e4EthUpdateMacAddrFilter_partition_witness :
    (msp432e4EthUpdateMacAddrFilter
        [{ addr := ⟨0x01, 0x00, 0x5E, 0x00, 0x00, 0x01⟩, refCount := 1 },
         { addr := ⟨0, 0, 0, 0, 0, 1⟩, refCount := 1 }]).unicast =
      (activeUnicastAddrs
        [{ addr := ⟨0x01, 0x00, 0x5E, 0x00, 0x00, 0x01⟩, refCount := 1 },
         { addr := ⟨0, 0, 0, 0, 0, 1⟩, refCount := 1 }]).take 3 ∧
    macAddrMatchedByFilter
      (msp432e4EthUpdateMacAddrFilter
        [{ addr := ⟨0x01, 0x00, 0x5E, 0x00, 0x00, 0x01⟩, refCount := 1 },
         { addr := ⟨0, 0, 0, 0, 0, 1⟩, refCount := 1 }])
      ⟨0x01, 0x00, 0x5E, 0x00, 0x00, 0x01⟩ :=
  ⟨(msp432e4EthUpdateMacAddrFilter_partition _).1,
    (msp432e4EthUpdateMacAddrFilter_partition _).2
      { addr := ⟨0x01, 0x00, 0x5E, 0x00, 0x00, 0x01⟩, refCount := 1 }
      (by simp) (by decide) (by decide)⟩

/-- C8: calling `ksz9477GetDynamicFdbEntry` with index 0 resets the
search engine regardless of stale state — the outcome depends only on
the learned table: an empty table yields `endOfTable` with the control
register written to zero, a non-empty table yields the first entry with
a fresh running search.  On every later call (index ≠ 0) against the
running search the driver left behind, the poll completes and the next
pending entry is decoded while one remains; once the search is
exhausted the call stops the engine (control register written to zero)
and returns `endOfTable`.  Moreover every `endOfTable` return, on any
index, leaves the control register at zero. -/
theorem ksz9477GetDynamicFdbEntry_search :
    (∀ s : Ksz9477AluState, s.table = [] →
      ksz9477GetDynamicFdbEntry s 0 =
        some (Except.error error_t.endOfTable,
          { ctrl := 0, queue := [], table := s.table })) ∧
    (∀ (s : Ksz9477AluState) (r : Ksz9477AluRecord) (rest : List Ksz9477AluRecord),
      s.table = r :: rest →
      ksz9477GetDynamicFdbEntry s 0 =
        some (Except.ok (ksz9477AluDecode r),
          { ctrl := KSZ9477_ALU_TABLE_CTRL_START_FINISH |||
              KSZ9477_ALU_TABLE_CTRL_ACTION_SEARCH,
            queue := rest, table := s.table })) ∧
    (∀ (s : Ksz9477AluState) (index : Nat) (r : Ksz9477AluRecord)
        (rest : List Ksz9477AluRecord), index ≠ 0 →
      s.ctrl = KSZ9477_ALU_TABLE_CTRL_START_FINISH |||
        KSZ9477_ALU_TABLE_CTRL_ACTION_SEARCH →
      s.queue = r :: rest →
      ksz9477GetDynamicFdbEntry s index =
        some (Except.ok (ksz9477AluDecode r),
          { ctrl := s.ctrl, queue := rest, table := s.table })) ∧
    (∀ (s : Ksz9477AluState) (index : Nat), index ≠ 0 →
      s.ctrl = KSZ9477_ALU_TABLE_CTRL_START_FINISH |||
        KSZ9477_ALU_TABLE_CTRL_ACTION_SEARCH →
      s.queue = [] →
      ksz9477GetDynamicFdbEntry s index =
        some (Except.error error_t.endOfTable,
          { ctrl := 0, queue := [], table := s.table })) ∧
    (∀ (s : Ksz9477AluState) (index : Nat) (e : error_t) (s' : Ksz9477AluState),
      ksz9477GetDynamicFdbEntry s index = some (Except.error e, s') →
      e = error_t.endOfTable ∧ s'.ctrl = 0) := by
  have hf1 : ¬ ((0 : Nat) &&& KSZ9477_ALU_TABLE_CTRL_START_FINISH ≠ 0) := by decide
  have ht1 : (KSZ9477_ALU_TABLE_CTRL_START_FINISH |||
      KSZ9477_ALU_TABLE_CTRL_ACTION_SEARCH) &&&
      KSZ9477_ALU_TABLE_CTRL_START_FINISH ≠ 0 := by decide
  have h2 : (KSZ9477_ALU_TABLE_CTRL_START_FINISH |||
      KSZ9477_ALU_TABLE_CTRL_ACTION_SEARCH |||
      KSZ9477_ALU_TABLE_CTRL_VALID_ENTRY_OR_SEARCH_END) &&&
      KSZ9477_ALU_TABLE_CTRL_VALID_ENTRY_OR_SEARCH_END ≠ 0 := by decide
  have h3 : (KSZ9477_ALU_TABLE_CTRL_START_FINISH |||
      KSZ9477_ALU_TABLE_CTRL_ACTION_SEARCH |||
      KSZ9477_ALU_TABLE_CTRL_VALID_ENTRY_OR_SEARCH_END) &&&
      KSZ9477_ALU_TABLE_CTRL_VALID = 0 := by decide
  have h4 : (KSZ9477_ALU_TABLE_CTRL_START_FINISH |||
      KSZ9477_ALU_TABLE_CTRL_ACTION_SEARCH |||
      KSZ9477_ALU_TABLE_CTRL_VALID_ENTRY_OR_SEARCH_END |||
      KSZ9477_ALU_TABLE_CTRL_VALID) &&&
      KSZ9477_ALU_TABLE_CTRL_VALID_ENTRY_OR_SEARCH_END ≠ 0 := by decide
  have h5 : (KSZ9477_ALU_TABLE_CTRL_START_FINISH |||
      KSZ9477_ALU_TABLE_CTRL_ACTION_SEARCH |||
      KSZ9477_ALU_TABLE_CTRL_VALID_ENTRY_OR_SEARCH_END |||
      KSZ9477_ALU_TABLE_CTRL_VALID) &&& KSZ9477_ALU_TABLE_CTRL_VALID ≠ 0 := by
    decide
  refine ⟨?_, ?_, ?_, ?_, ?_⟩
  · intro s h
    obtain ⟨c, q, t⟩ := s
    simp only at h
    subst h
    simp [ksz9477GetDynamicFdbEntry, ksz9477AluWriteCtrl, ksz9477AluReadCtrl,
      hf1, ht1, h2, h3]
  · intro s r rest h
    obtain ⟨c, q, t⟩ := s
    simp only at h
    subst h
    simp [ksz9477GetDynamicFdbEntry, ksz9477AluWriteCtrl, ksz9477AluReadCtrl,
      hf1, ht1, h4, h5]
  · intro s index r rest hidx hctrl hq
    obtain ⟨c, q, t⟩ := s
    simp only at hctrl hq
    subst hctrl
    subst hq
    simp [ksz9477GetDynamicFdbEntry, ksz9477AluReadCtrl, hidx, ht1, h4, h5]
  · intro s index hidx hctrl hq
    obtain ⟨c, q, t⟩ := s
    simp only at hctrl hq
    subst hctrl
    subst hq
    simp [ksz9477GetDynamicFdbEntry, ksz9477AluWriteCtrl, ksz9477AluReadCtrl,
      hidx, hf1, ht1, h2, h3]
  · intro s index e s' h
    unfold ksz9477GetDynamicFdbEntry at h
    simp only [] at h
    generalize (if index = 0 then
        ksz9477AluWriteCtrl (ksz9477AluWriteCtrl s 0)
          (KSZ9477_ALU_TABLE_CTRL_START_FINISH |||
            KSZ9477_ALU_TABLE_CTRL_ACTION_SEARCH)
      else s) = s1 at h
    split at h
    · exact absurd h (by simp)
    · split at h
      · split at h
        · exact absurd h (by simp)
        · exact absurd h (by simp)
      · rw [Option.some_inj] at h
        have he : (Except.error error_t.endOfTable :
            Except error_t SwitchFdbEntry) = Except.error e :=
          congrArg Prod.fst h
        have hs : ksz9477AluWriteCtrl s1 0 = s' := congrArg Prod.snd h
        refine ⟨by injection he with he; exact he.symm, ?_⟩
        rw [← hs]
        simp [ksz9477AluWriteCtrl, hf1]

/-- Witness for C8 on concrete engine states: a full enumeration of a
two-entry table — index 0 restarts the search (from a stale state) and
yields the first entry, index 1 decodes the second pending entry, index
2 hits the search end, stopping the engine and returning `endOfTable` —
plus the empty table from index 0 and the stopped-engine check on the
final `endOfTable` return. -/
theorem ksz9477GetDynamicFdbEntry_search_witness :
    ksz9477GetDynamicFdbEntry { ctrl := 7, queue := [⟨9, 9, 9, 9⟩], table := [] } 0 =
      some (Except.error error_t.endOfTable,
        { ctrl := 0, queue := [], table := [] }) ∧
    ksz9477GetDynamicFdbEntry
        { ctrl := 7, queue := [⟨9, 9, 9, 9⟩],
          table := [⟨1, 2, 3, 4⟩, ⟨5, 6, 7, 8⟩] } 0 =
      some (Except.ok (ksz9477AluDecode ⟨1, 2, 3, 4⟩),
        { ctrl := KSZ9477_ALU_TABLE_CTRL_START_FINISH |||
            KSZ9477_ALU_TABLE_CTRL_ACTION_SEARCH,
          queue := [⟨5, 6, 7, 8⟩], table := [⟨1, 2, 3, 4⟩, ⟨5, 6, 7, 8⟩] }) ∧
    ksz9477GetDynamicFdbEntry
        { ctrl := KSZ9477_ALU_TABLE_CTRL_START_FINISH |||
            KSZ9477_ALU_TABLE_CTRL_ACTION_SEARCH,
          queue := [⟨5, 6, 7, 8⟩], table := [⟨1, 2, 3, 4⟩, ⟨5, 6, 7, 8⟩] } 1 =
      some (Except.ok (ksz9477AluDecode ⟨5, 6, 7, 8⟩),
        { ctrl := KSZ9477_ALU_TABLE_CTRL_START_FINISH |||
            KSZ9477_ALU_TABLE_CTRL_ACTION_SEARCH,
          queue := [], table := [⟨1, 2, 3, 4⟩, ⟨5, 6, 7, 8⟩] }) ∧
    ksz9477GetDynamicFdbEntry
        { ctrl := KSZ9477_ALU_TABLE_CTRL_START_FINISH |||
            KSZ9477_ALU_TABLE_CTRL_ACTION_SEARCH,
          queue := [], table := [⟨1, 2, 3, 4⟩, ⟨5, 6, 7, 8⟩] } 2 =
      some (Except.error error_t.endOfTable,
        { ctrl := 0, queue := [], table := [⟨1, 2, 3, 4⟩, ⟨5, 6, 7, 8⟩] }) ∧
    (error_t.endOfTable = error_t.endOfTable ∧
      ({ ctrl := 0, queue := [],
         table := [⟨1, 2, 3, 4⟩, ⟨5, 6, 7, 8⟩] } : Ksz9477AluState).ctrl = 0) :=
  ⟨ksz9477GetDynamicFdbEntry_search.1
     { ctrl := 7, queue := [⟨9, 9, 9, 9⟩], table := [] } rfl,
   ksz9477GetDynamicFdbEntry_search.2.1
     { ctrl := 7, queue := [⟨9, 9, 9, 9⟩],
       table := [⟨1, 2, 3, 4⟩, ⟨5, 6, 7, 8⟩] }
     ⟨1, 2, 3, 4⟩ [⟨5, 6, 7, 8⟩] rfl,
   ksz9477GetDynamicFdbEntry_search.2.2.1
     { ctrl := KSZ9477_ALU_TABLE_CTRL_START_FINISH |||
         KSZ9477_ALU_TABLE_CTRL_ACTION_SEARCH,
       queue := [⟨5, 6, 7, 8⟩], table := [⟨1, 2, 3, 4⟩, ⟨5, 6, 7, 8⟩] }
     1 ⟨5, 6, 7, 8⟩ [] (by decide) rfl rfl,
   ksz9477GetDynamicFdbEntry_search.2.2.2.1
     { ctrl := KSZ9477_ALU_TABLE_CTRL_START_FINISH |||
         KSZ9477_ALU_TABLE_CTRL_ACTION_SEARCH,
       queue := [], table := [⟨1, 2, 3, 4⟩, ⟨5, 6, 7, 8⟩] }
     2 (by decide) rfl rfl,
   ksz9477GetDynamicFdbEntry_search.2.2.2.2
     { ctrl := KSZ9477_ALU_TABLE_CTRL_START_FINISH |||
         KSZ9477_ALU_TABLE_CTRL_ACTION_SEARCH,
       queue := [], table := [⟨1, 2, 3, 4⟩, ⟨5, 6, 7, 8⟩] }
     2 error_t.endOfTable
     { ctrl := 0, queue := [], table := [⟨1, 2, 3, 4⟩, ⟨5, 6, 7, 8⟩] }
     (ksz9477GetDynamicFdbEntry_search.2.2.2.1
       { ctrl := KSZ9477_ALU_TABLE_CTRL_START_FINISH |||
           KSZ9477_ALU_TABLE_CTRL_ACTION_SEARCH,
         queue := [], table := [⟨1, 2, 3, 4⟩, ⟨5, 6, 7, 8⟩] }
       2 (by decide) rfl rfl)⟩

/-- C9, counterexample: at `agingTime = 0xFFFFFFFF` the `uint32_t`
addition `agingTime + 3` wraps, the register is written 0, while the
claimed exact-arithmetic value `min((agingTime + 3) / 4, 255)` is 255. -/
theorem ksz9477SetAgingTime_wrap_counterexample :
    ksz9477SetAgingTime 0xFFFFFFFF = 0 ∧
    min ((0xFFFFFFFF + 3) / 4) 255 = 255 ∧ (0 : Nat) ≠ 255 := by
  refine ⟨?_, by decide, by decide⟩
  decide

/-- C9 (amended): for every `agingTime` whose `+ 3` does not overflow
`uint32_t` (i.e. `agingTime ≤ 2^32 - 4`), the written byte is exactly
`min((agingTime + 3) / 4, 255)`; at larger values the sum wraps modulo
`2^32` first. -/
theorem ksz9477SetAgingTime_quantizes (agingTime : Nat)
    (h : agingTime + 3 < UINT32_LIMIT) :
    ksz9477SetAgingTime agingTime = min ((agingTime + 3) / 4) 255 := by
  unfold ksz9477SetAgingTime UINT32_LIMIT
  unfold UINT32_LIMIT at h
  omega

/-- Witness for the amended C9 at `agingTime = 300` (register 75). -/
theorem ksz9477SetAgingTime_quantizes_witness :
    300 + 3 < UINT32_LIMIT ∧ ksz9477SetAgingTime 300 = min ((300 + 3) / 4) 255 :=
  ⟨by decide, ksz9477SetAgingTime_quantizes 300 (by decide)⟩

/-- C10: in SPI mode with port tagging enabled, a received frame of at
least `sizeof(EthHeader) + 1` bytes is stripped of exactly its final
byte — the returned length is the input length minus one — and the
ancillary source port is the tail byte masked by the source-port field,
plus one; any shorter frame is rejected with `invalidLength` and left
untouched. -/
theorem ksz9477UntagFrame_spec (frame : List Nat) :
    (frame.length ≥ ETH_HEADER_SIZE + 1 →
      ksz9477UntagFrame frame =
        Except.ok (frame.take (frame.length - 1),
          (frame.getD (frame.length - 1) 0 &&& KSZ9477_TAIL_TAG_SRC_PORT) + 1) ∧
      (frame.take (frame.length - 1)).length = frame.length - 1) ∧
    (frame.length < ETH_HEADER_SIZE + 1 →
      ksz9477UntagFrame frame = Except.error error_t.invalidLength) := by
  constructor
  · intro h
    constructor
    · unfold ksz9477UntagFrame
      rw [if_pos h]
    · rw [List.length_take]
      omega
  · intro h
    unfold ksz9477UntagFrame
    rw [if_neg (by omega)]

/-- Witness for C10: a 15-byte frame whose tail byte `0x83` produces
port 4 and a 14-byte length-minus-one result; a 3-byte frame is
rejected. -/
theorem ksz9477UntagFrame_spec_witness :
    ([0, 1, 2, 3, 4, 5, 6, 7, 8, 9, 10, 11, 12, 13, 0x83] : List Nat).length ≥
      ETH_HEADER_SIZE + 1 ∧
    (ksz9477UntagFrame [0, 1, 2, 3, 4, 5, 6, 7, 8, 9, 10, 11, 12, 13, 0x83] =
      Except.ok ([0, 1, 2, 3, 4, 5, 6, 7, 8, 9, 10, 11, 12, 13], 4) ∧
    ksz9477UntagFrame [1, 2, 3] = Except.error error_t.invalidLength) := by
  refine ⟨by decide, ?_, (ksz9477UntagFrame_spec [1, 2, 3]).2 (by decide)⟩
  have h := (ksz9477UntagFrame_spec
    [0, 1, 2, 3, 4, 5, 6, 7, 8, 9, 10, 11, 12, 13, 0x83]).1 (by decide)
  rw [h.1]
  rfl

/-- In-range reads of the static table decode the stored slot. -/
theorem ksz9477GetStaticFdbEntry_lt (table : Nat → Ksz9477StaticRecord)
    (i : Nat) (hi : i < KSZ9477_STATIC_MAC_TABLE_SIZE) :
    ksz9477GetStaticFdbEntry table i =
      if ksz9477StaticValidAt table i then
        Except.ok
          { macAddr := ksz9477StaticAddrAt table i
            srcPort := 0
            destPorts := (table i).entry2 &&& KSZ9477_STATIC_TABLE_ENTRY2_PORT_FORWARD
            override :=
              (table i).entry2 &&& KSZ9477_STATIC_TABLE_ENTRY2_OVERRIDE != 0 }
      else
        Except.error error_t.invalidEntry := by
  unfold ksz9477GetStaticFdbEntry ksz9477StaticValidAt ksz9477StaticAddrAt
  rw [if_pos hi]

/-- If the scan's saved slot is not the sentinel and no remaining slot
matches the address, the scan returns the saved slot unchanged. -/
theorem ksz9477StaticScan_stable (table : Nat → Ksz9477StaticRecord)
    (addr : MacAddr) :
    ∀ (fuel i j : Nat), j ≠ KSZ9477_STATIC_MAC_TABLE_SIZE →
      (∀ m, i ≤ m → m < KSZ9477_STATIC_MAC_TABLE_SIZE →
        ¬ ksz9477StaticMatchAt table addr m) →
      ksz9477StaticScan table addr fuel i j = j := by
  intro fuel
  induction fuel with
  | zero => intro i j _ _; rfl
  | succ fuel ih =>
    intro i j hj hnm
    unfold ksz9477StaticScan
    by_cases hi : i < KSZ9477_STATIC_MAC_TABLE_SIZE
    · rw [if_pos hi]
      split
      · rename_i cur heq
        rw [ksz9477GetStaticFdbEntry_lt table i hi] at heq
        by_cases hv : ksz9477StaticValidAt table i
        · rw [if_pos hv] at heq
          have hcur : cur.macAddr = ksz9477StaticAddrAt table i := by
            injection heq with heq
            rw [← heq]
          have hne : cur.macAddr ≠ addr := by
            rw [hcur]
            intro hc
            exact hnm i (Nat.le_refl i) hi ⟨hv, hc⟩
          rw [if_neg hne]
          exact ih (i + 1) j hj (fun m hm => hnm m (by omega))
        · rw [if_neg hv] at heq
          exact absurd heq (by simp)
      · rename_i err heq
        rw [if_neg hj]
        exact ih (i + 1) j hj (fun m hm => hnm m (by omega))
    · rw [if_neg hi]

/-- A multiple of `2 ^ n` or-ed with a value below `2 ^ n` is their sum
(the bit ranges are disjoint). -/
theorem mul_two_pow_lor_eq_add {q b n : Nat} (hb : b < 2 ^ n) :
    (2 ^ n * q) ||| b = 2 ^ n * q + b := by
  refine Nat.eq_of_testBit_eq fun i => ?_
  rw [Nat.testBit_lor]
  by_cases hi : i < n
  · have hpow : 2 ^ i * 2 ^ (n - i) = 2 ^ n := by
      rw [← pow_add]
      congr 1
      omega
    have hsplit : 2 ^ n * q = 2 ^ i * (2 ^ (n - i) * q) := by
      rw [← Nat.mul_assoc, hpow]
    obtain ⟨m, hm⟩ : ∃ m, 2 ^ (n - i) * q = 2 * m := by
      refine ⟨2 ^ (n - i - 1) * q, ?_⟩
      rw [← Nat.mul_assoc]
      congr 1
      rw [← pow_succ']
      congr 1
      omega
    have h1 : (2 ^ n * q).testBit i = false := by
      rw [Nat.testBit_to_div_mod, hsplit,
        Nat.mul_div_cancel_left _ (Nat.pos_pow_of_pos i (by norm_num)), hm]
      simp [Nat.mul_mod_right]
    have h2 : (2 ^ n * q + b).testBit i = b.testBit i := by
      rw [Nat.testBit_to_div_mod, Nat.testBit_to_div_mod, hsplit, Nat.add_comm,
        Nat.add_mul_div_left _ _ (Nat.pos_pow_of_pos i (by norm_num)), hm]
      have hmod : (b / 2 ^ i + 2 * m) % 2 = b / 2 ^ i % 2 := by omega
      rw [hmod]
    rw [h1, h2, Bool.false_or]
  · have hble : (2 : Nat) ^ n ≤ 2 ^ i :=
      Nat.pow_le_pow_right (by norm_num) (Nat.le_of_not_lt hi)
    have hb' : b.testBit i = false :=
      Nat.testBit_lt_two_pow (Nat.lt_of_lt_of_le hb hble)
    have hpow : 2 ^ n * 2 ^ (i - n) = 2 ^ i := by
      rw [← pow_add]
      congr 1
      omega
    have e1 : (2 ^ n * q + b) / 2 ^ i = q / 2 ^ (i - n) := by
      rw [← hpow, ← Nat.div_div_eq_div_mul,
        Nat.mul_add_div (Nat.pos_pow_of_pos n (by norm_num)),
        Nat.div_eq_of_lt hb, Nat.add_zero]
    have e2 : (2 ^ n * q) / 2 ^ i = q / 2 ^ (i - n) := by
      rw [← hpow, ← Nat.div_div_eq_div_mul,
        Nat.mul_div_cancel_left _ (Nat.pos_pow_of_pos n (by norm_num))]
    rw [hb', Bool.or_false, Nat.testBit_to_div_mod, Nat.testBit_to_div_mod, e1, e2]

/-- Disjoint-range `|||` is `+`: any multiple of `2 ^ n` against a value
below `2 ^ n`. -/
theorem lor_eq_add_of_emod {a b n : Nat} (ha : a % 2 ^ n = 0)
    (hb : b < 2 ^ n) : a ||| b = a + b := by
  obtain ⟨q, hq⟩ : ∃ q, a = 2 ^ n * q :=
    ⟨a / 2 ^ n, by rw [Nat.mul_comm]; exact (Nat.div_mul_cancel (Nat.dvd_of_mod_eq_zero ha)).symm⟩
  rw [hq]
  exact mul_two_pow_lor_eq_add hb

/-- Masking with `0xFF` is reduction modulo 256. -/
theorem land_255_eq_mod (x : Nat) : x &&& 0xFF = x % 256 := by
  have h : (0xFF : Nat) = 2 ^ 8 - 1 := by norm_num
  have h2 : (256 : Nat) = 2 ^ 8 := by norm_num
  rw [h, h2]
  exact Nat.eq_of_testBit_eq fun i => by
    rw [Nat.testBit_land, Nat.testBit_two_pow_sub_one, Nat.testBit_mod_two_pow,
      Bool.and_comm]

/-- Masking with `0x7F` is reduction modulo 128. -/
theorem land_127_eq_mod (x : Nat) : x &&& 0x7F = x % 128 := by
  have h : (0x7F : Nat) = 2 ^ 7 - 1 := by norm_num
  have h2 : (128 : Nat) = 2 ^ 7 := by norm_num
  rw [h, h2]
  exact Nat.eq_of_testBit_eq fun i => by
    rw [Nat.testBit_land, Nat.testBit_two_pow_sub_one, Nat.testBit_mod_two_pow,
      Bool.and_comm]

/-- The scan stops at the first slot already matching the address,
whatever free slot it may have remembered. -/
theorem ksz9477StaticScan_first_match (table : Nat → Ksz9477StaticRecord)
    (addr : MacAddr) :
    ∀ (fuel i j m : Nat), KSZ9477_STATIC_MAC_TABLE_SIZE ≤ fuel + i →
      i ≤ m → m < KSZ9477_STATIC_MAC_TABLE_SIZE →
      ksz9477StaticMatchAt table addr m →
      (∀ m', i ≤ m' → m' < m → ¬ ksz9477StaticMatchAt table addr m') →
      ksz9477StaticScan table addr fuel i j = m := by
  intro fuel
  induction fuel with
  | zero =>
    intro i j m hfuel him hm _ _
    unfold KSZ9477_STATIC_MAC_TABLE_SIZE at hfuel hm
    omega
  | succ fuel ih =>
    intro i j m hfuel him hm hmatch hfirst
    have hi : i < KSZ9477_STATIC_MAC_TABLE_SIZE := Nat.lt_of_le_of_lt him hm
    unfold ksz9477StaticScan
    rw [if_pos hi]
    split
    · rename_i cur heq
      rw [ksz9477GetStaticFdbEntry_lt table i hi] at heq
      by_cases hv : ksz9477StaticValidAt table i
      · rw [if_pos hv] at heq
        have hcur : cur.macAddr = ksz9477StaticAddrAt table i := by
          injection heq with heq
          rw [← heq]
        by_cases hieq : i = m
        · have : cur.macAddr = addr := by
            rw [hcur, hieq]
            exact hmatch.2
          rw [if_pos this, hieq]
        · have hlt : i < m := by omega
          have hne : cur.macAddr ≠ addr := by
            rw [hcur]
            intro hc
            exact hfirst i (Nat.le_refl i) hlt ⟨hv, hc⟩
          rw [if_neg hne]
          exact ih (i + 1) j m (by omega) (by omega) hm hmatch
            (fun m' hm' => hfirst m' (by omega))
      · rw [if_neg hv] at heq
        exact absurd heq (by simp)
    · rename_i err heq
      have hieq : i ≠ m := by
        intro hc
        rw [ksz9477GetStaticFdbEntry_lt table i hi,
          if_pos (hc ▸ hmatch.1)] at heq
        exact absurd heq (by simp)
      have hlt : i < m := by omega
      split
      · exact ih (i + 1) i m (by omega) (by omega) hm hmatch
          (fun m' hm' => hfirst m' (by omega))
      · exact ih (i + 1) j m (by omega) (by omega) hm hmatch
          (fun m' hm' => hfirst m' (by omega))

/-- With no matching slot anywhere ahead, the scan lands on the first
free slot. -/
theorem ksz9477StaticScan_first_free (table : Nat → Ksz9477StaticRecord)
    (addr : MacAddr) :
    ∀ (fuel i f : Nat), KSZ9477_STATIC_MAC_TABLE_SIZE ≤ fuel + i →
      (∀ m, i ≤ m → m < KSZ9477_STATIC_MAC_TABLE_SIZE →
        ¬ ksz9477StaticMatchAt table addr m) →
      i ≤ f → f < KSZ9477_STATIC_MAC_TABLE_SIZE →
      ¬ ksz9477StaticValidAt table f →
      (∀ m', i ≤ m' → m' < f → ksz9477StaticValidAt table m') →
      ksz9477StaticScan table addr fuel i KSZ9477_STATIC_MAC_TABLE_SIZE = f := by
  intro fuel
  induction fuel with
  | zero =>
    intro i f hfuel _ hif hf _ _
    omega
  | succ fuel ih =>
    intro i f hfuel hnm hif hf hfree hvalid
    have hi : i < KSZ9477_STATIC_MAC_TABLE_SIZE := Nat.lt_of_le_of_lt hif hf
    unfold ksz9477StaticScan
    rw [if_pos hi]
    split
    · rename_i cur heq
      rw [ksz9477GetStaticFdbEntry_lt table i hi] at heq
      by_cases hv : ksz9477StaticValidAt table i
      · rw [if_pos hv] at heq
        have hcur : cur.macAddr = ksz9477StaticAddrAt table i := by
          injection heq with heq
          rw [← heq]
        have hieq : i ≠ f := fun hc => hfree (hc ▸ hv)
        have hne : cur.macAddr ≠ addr := by
          rw [hcur]
          intro hc
          exact hnm i (Nat.le_refl i) hi ⟨hv, hc⟩
        rw [if_neg hne]
        exact ih (i + 1) f (by omega) (fun m hm => hnm m (by omega))
          (by omega) hf hfree (fun m' hm' => hvalid m' (by omega))
      · rw [if_neg hv] at heq
        exact absurd heq (by simp)
    · rename_i err heq
      have hieq : i = f := by
        by_contra hc
        have hvi : ksz9477StaticValidAt table i :=
          hvalid i (Nat.le_refl i) (by omega)
        rw [ksz9477GetStaticFdbEntry_lt table i hi, if_pos hvi] at heq
        exact absurd heq (by simp)
      rw [if_pos rfl, hieq]
      exact ksz9477StaticScan_stable table addr fuel (f + 1) f
        (by omega) (fun m hm1 hm2 => hnm m (by omega) hm2)

/-- With every remaining slot valid and holding a different address, the
scan returns the sentinel. -/
theorem ksz9477StaticScan_all_valid (table : Nat → Ksz9477StaticRecord)
    (addr : MacAddr) :
    ∀ (fuel i : Nat),
      (∀ m, i ≤ m → m < KSZ9477_STATIC_MAC_TABLE_SIZE →
        ksz9477StaticValidAt table m ∧ ksz9477StaticAddrAt table m ≠ addr) →
      ksz9477StaticScan table addr fuel i KSZ9477_STATIC_MAC_TABLE_SIZE =
        KSZ9477_STATIC_MAC_TABLE_SIZE := by
  intro fuel
  induction fuel with
  | zero => intro i _; rfl
  | succ fuel ih =>
    intro i hall
    unfold ksz9477StaticScan
    by_cases hi : i < KSZ9477_STATIC_MAC_TABLE_SIZE
    · rw [if_pos hi]
      split
      · rename_i cur heq
        rw [ksz9477GetStaticFdbEntry_lt table i hi,
          if_pos (hall i (Nat.le_refl i) hi).1] at heq
        have hcur : cur.macAddr = ksz9477StaticAddrAt table i := by
          injection heq with heq
          rw [← heq]
        have hne : cur.macAddr ≠ addr := hcur ▸ (hall i (Nat.le_refl i) hi).2
        rw [if_neg hne]
        exact ih (i + 1) (fun m hm => hall m (by omega))
      · rename_i err heq
        rw [ksz9477GetStaticFdbEntry_lt table i hi,
          if_pos (hall i (Nat.le_refl i) hi).1] at heq
        exact absurd heq (by simp)
    · rw [if_neg hi]

/-- If the scan comes back with the sentinel, it started with it and
every remaining slot is valid with a different address. -/
theorem ksz9477StaticScan_eq_size (table : Nat → Ksz9477StaticRecord)
    (addr : MacAddr) :
    ∀ (fuel i j : Nat), KSZ9477_STATIC_MAC_TABLE_SIZE ≤ fuel + i →
      ksz9477StaticScan table addr fuel i j = KSZ9477_STATIC_MAC_TABLE_SIZE →
      j = KSZ9477_STATIC_MAC_TABLE_SIZE ∧
      ∀ m, i ≤ m → m < KSZ9477_STATIC_MAC_TABLE_SIZE →
        ksz9477StaticValidAt table m ∧ ksz9477StaticAddrAt table m ≠ addr := by
  intro fuel
  induction fuel with
  | zero =>
    intro i j hfuel hscan
    exact ⟨hscan, fun m hm hm' => by omega⟩
  | succ fuel ih =>
    intro i j hfuel hscan
    unfold ksz9477StaticScan at hscan
    by_cases hi : i < KSZ9477_STATIC_MAC_TABLE_SIZE
    · rw [if_pos hi] at hscan
      revert hscan
      split
      · rename_i cur heq
        intro hscan
        rw [ksz9477GetStaticFdbEntry_lt table i hi] at heq
        by_cases hv : ksz9477StaticValidAt table i
        · rw [if_pos hv] at heq
          have hcur : cur.macAddr = ksz9477StaticAddrAt table i := by
            injection heq with heq
            rw [← heq]
          by_cases hca : cur.macAddr = addr
          · rw [if_pos hca] at hscan
            omega
          · rw [if_neg hca] at hscan
            obtain ⟨hj, hrest⟩ := ih (i + 1) j (by omega) hscan
            refine ⟨hj, fun m hm hm' => ?_⟩
            by_cases hmi : m = i
            · exact ⟨hmi ▸ hv, hmi ▸ (hcur ▸ hca)⟩
            · exact hrest m (by omega) hm'
        · rw [if_neg hv] at heq
          exact absurd heq (by simp)
      · rename_i err heq
        intro hscan
        revert hscan
        split
        · intro hscan
          obtain ⟨hj, _⟩ := ih (i + 1) i (by omega) hscan
          omega
        · intro hscan
          obtain ⟨hj, _⟩ := ih (i + 1) j (by omega) hscan
          exact absurd hj (by assumption)
    · rw [if_neg hi] at hscan
      exact ⟨hscan, fun m hm hm' => by omega⟩

/-- The scan's result never exceeds the sentinel. -/
theorem ksz9477StaticScan_le (table : Nat → Ksz9477StaticRecord)
    (addr : MacAddr) :
    ∀ (fuel i j : Nat), j ≤ KSZ9477_STATIC_MAC_TABLE_SIZE →
      ksz9477StaticScan table addr fuel i j ≤ KSZ9477_STATIC_MAC_TABLE_SIZE := by
  intro fuel
  induction fuel with
  | zero => intro i j hj; exact hj
  | succ fuel ih =>
    intro i j hj
    unfold ksz9477StaticScan
    by_cases hi : i < KSZ9477_STATIC_MAC_TABLE_SIZE
    · rw [if_pos hi]
      split
      · split
        · omega
        · exact ih (i + 1) j hj
      · split
        · exact ih (i + 1) i (by omega)
        · exact ih (i + 1) j hj
    · rw [if_neg hi]
      exact hj

/-- Packing two bytes as `(b0 << 8) | b1` and unpacking them recovers
both bytes. -/
theorem ksz9477_decode_two_bytes (b0 b1 : Nat) (h0 : b0 < 256)
    (h1 : b1 < 256) :
    (((b0 <<< 8) ||| b1) >>> 8) &&& 0xFF = b0 ∧
    ((b0 <<< 8) ||| b1) &&& 0xFF = b1 := by
  have h256 : (2 : Nat) ^ 8 = 256 := by norm_num
  have he : (b0 <<< 8) ||| b1 = 256 * b0 + b1 := by
    rw [Nat.shiftLeft_eq, Nat.mul_comm b0 (2 ^ 8),
      mul_two_pow_lor_eq_add (h256 ▸ h1), h256]
  constructor
  · rw [he, Nat.shiftRight_eq_div_pow, land_255_eq_mod, h256]
    omega
  · rw [he, land_255_eq_mod]
    omega

/-- Packing four bytes as `(b2 << 24) | (b3 << 16) | (b4 << 8) | b5` and
unpacking them recovers all four bytes. -/
theorem ksz9477_decode_four_bytes (b2 b3 b4 b5 : Nat) (h2 : b2 < 256)
    (h3 : b3 < 256) (h4 : b4 < 256) (h5 : b5 < 256) :
    ((((b2 <<< 24) ||| (b3 <<< 16) ||| (b4 <<< 8) ||| b5) >>> 24) &&& 0xFF = b2) ∧
    ((((b2 <<< 24) ||| (b3 <<< 16) ||| (b4 <<< 8) ||| b5) >>> 16) &&& 0xFF = b3) ∧
    ((((b2 <<< 24) ||| (b3 <<< 16) ||| (b4 <<< 8) ||| b5) >>> 8) &&& 0xFF = b4) ∧
    (((b2 <<< 24) ||| (b3 <<< 16) ||| (b4 <<< 8) ||| b5) &&& 0xFF = b5) := by
  have e1 : (b2 <<< 24) ||| (b3 <<< 16) = 16777216 * b2 + 65536 * b3 := by
    have hb : b3 <<< 16 < 2 ^ 24 := by
      rw [Nat.shiftLeft_eq]
      have : (2 : Nat) ^ 16 = 65536 := by norm_num
      rw [this]
      have : (2 : Nat) ^ 24 = 16777216 := by norm_num
      rw [this]
      omega
    rw [Nat.shiftLeft_eq b2 24, Nat.mul_comm b2 (2 ^ 24),
      mul_two_pow_lor_eq_add hb, Nat.shiftLeft_eq b3 16]
    norm_num
    omega
  have e2 : (16777216 * b2 + 65536 * b3) ||| (b4 <<< 8) =
      16777216 * b2 + 65536 * b3 + 256 * b4 := by
    have ha : (16777216 * b2 + 65536 * b3) % 2 ^ 16 = 0 := by
      have : (2 : Nat) ^ 16 = 65536 := by norm_num
      rw [this]
      omega
    have hb : b4 <<< 8 < 2 ^ 16 := by
      rw [Nat.shiftLeft_eq]
      have : (2 : Nat) ^ 8 = 256 := by norm_num
      rw [this]
      have : (2 : Nat) ^ 16 = 65536 := by norm_num
      rw [this]
      omega
    rw [lor_eq_add_of_emod ha hb, Nat.shiftLeft_eq]
    norm_num
    omega
  have e3 : (16777216 * b2 + 65536 * b3 + 256 * b4) ||| b5 =
      16777216 * b2 + 65536 * b3 + 256 * b4 + b5 := by
    have ha : (16777216 * b2 + 65536 * b3 + 256 * b4) % 2 ^ 8 = 0 := by
      have : (2 : Nat) ^ 8 = 256 := by norm_num
      rw [this]
      omega
    have hb : b5 < 2 ^ 8 := by
      have : (2 : Nat) ^ 8 = 256 := by norm_num
      rw [this]
      exact h5
    exact lor_eq_add_of_emod ha hb
  have he : (b2 <<< 24) ||| (b3 <<< 16) ||| (b4 <<< 8) ||| b5 =
      16777216 * b2 + 65536 * b3 + 256 * b4 + b5 := by
    rw [e1, e2, e3]
  have p24 : (2 : Nat) ^ 24 = 16777216 := by norm_num
  have p16 : (2 : Nat) ^ 16 = 65536 := by norm_num
  have p8 : (2 : Nat) ^ 8 = 256 := by norm_num
  refine ⟨?_, ?_, ?_, ?_⟩
  · rw [he, Nat.shiftRight_eq_div_pow, land_255_eq_mod, p24]
    omega
  · rw [he, Nat.shiftRight_eq_div_pow, land_255_eq_mod, p16]
    omega
  · rw [he, Nat.shiftRight_eq_div_pow, land_255_eq_mod, p8]
    omega
  · rw [he, land_255_eq_mod]
    omega

/-- Reading back a just-written static slot recovers the entry's
address, destination ports and override flag (`srcPort` reads as 0),
provided the address bytes are in byte range and the destination ports
fit the 7-port mask without being the CPU-port alias. -/
theorem ksz9477GetStaticFdbEntry_after_write
    (table : Nat → Ksz9477StaticRecord) (entry : SwitchFdbEntry) (j : Nat)
    (hj : j < KSZ9477_STATIC_MAC_TABLE_SIZE)
    (hb0 : entry.macAddr.b0 < 256) (hb1 : entry.macAddr.b1 < 256)
    (hb2 : entry.macAddr.b2 < 256) (hb3 : entry.macAddr.b3 < 256)
    (hb4 : entry.macAddr.b4 < 256) (hb5 : entry.macAddr.b5 < 256)
    (hp : entry.destPorts &&& KSZ9477_PORT_MASK = entry.destPorts)
    (hc : entry.destPorts ≠ SWITCH_CPU_PORT_MASK) :
    ksz9477GetStaticFdbEntry
        (updFn table j (ksz9477StaticEntryRecord entry)) j =
      Except.ok
        { macAddr := entry.macAddr, srcPort := 0,
          destPorts := entry.destPorts, override := entry.override } := by
  obtain ⟨⟨b0, b1, b2, b3, b4, b5⟩, sp, dp, ov⟩ := entry
  simp only at hb0 hb1 hb2 hb3 hb4 hb5 hp hc
  have hdp : dp < 128 := by
    rw [← hp]
    unfold KSZ9477_PORT_MASK
    rw [land_127_eq_mod]
    omega
  have hrec : updFn table j
      (ksz9477StaticEntryRecord ⟨⟨b0, b1, b2, b3, b4, b5⟩, sp, dp, ov⟩) j =
      ksz9477StaticEntryRecord ⟨⟨b0, b1, b2, b3, b4, b5⟩, sp, dp, ov⟩ := by
    unfold updFn
    rw [if_pos rfl]
  have hsmall0 : ∀ x, x < 128 → x &&& 0x40000000 = 0 := by decide
  have hsmall1 : ∀ x, x < 128 → (x ||| 0x40000000) &&& 0x7F = x := by decide
  have hsmall2 : ∀ x, x < 128 → (x ||| 0x40000000) &&& 0x40000000 =
      0x40000000 := by decide
  rw [ksz9477GetStaticFdbEntry_lt _ j hj]
  have hvalid : ksz9477StaticValidAt
      (updFn table j
        (ksz9477StaticEntryRecord ⟨⟨b0, b1, b2, b3, b4, b5⟩, sp, dp, ov⟩)) j := by
    unfold ksz9477StaticValidAt
    rw [hrec]
    show KSZ9477_STATIC_TABLE_ENTRY1_VALID &&&
      KSZ9477_STATIC_TABLE_ENTRY1_VALID ≠ 0
    decide
  rw [if_pos hvalid]
  have haddr : ksz9477StaticAddrAt
      (updFn table j
        (ksz9477StaticEntryRecord ⟨⟨b0, b1, b2, b3, b4, b5⟩, sp, dp, ov⟩)) j =
      MacAddr.mk b0 b1 b2 b3 b4 b5 := by
    unfold ksz9477StaticAddrAt
    rw [hrec]
    obtain ⟨d2a, d2b⟩ := ksz9477_decode_two_bytes b0 b1 hb0 hb1
    obtain ⟨d4a, d4b, d4c, d4d⟩ :=
      ksz9477_decode_four_bytes b2 b3 b4 b5 hb2 hb3 hb4 hb5
    unfold ksz9477StaticEntryRecord
    simp only [MacAddr.mk.injEq]
    exact ⟨d2a, d2b, d4a, d4b, d4c, d4d⟩
  have hentry2 : (ksz9477StaticEntryRecord
      ⟨⟨b0, b1, b2, b3, b4, b5⟩, sp, dp, ov⟩).entry2 =
      dp ||| (if ov then KSZ9477_STATIC_TABLE_ENTRY2_OVERRIDE else 0) := by
    unfold ksz9477StaticEntryRecord
    simp only
    rw [if_neg hc, hp]
  have hports : (ksz9477StaticEntryRecord
      ⟨⟨b0, b1, b2, b3, b4, b5⟩, sp, dp, ov⟩).entry2 &&&
      KSZ9477_STATIC_TABLE_ENTRY2_PORT_FORWARD = dp := by
    rw [hentry2]
    cases ov
    · rw [if_neg (by decide), Nat.or_zero]
      exact hp
    · rw [if_pos rfl]
      unfold KSZ9477_STATIC_TABLE_ENTRY2_OVERRIDE
        KSZ9477_STATIC_TABLE_ENTRY2_PORT_FORWARD
      exact hsmall1 dp hdp
  have hov : ((ksz9477StaticEntryRecord
      ⟨⟨b0, b1, b2, b3, b4, b5⟩, sp, dp, ov⟩).entry2 &&&
      KSZ9477_STATIC_TABLE_ENTRY2_OVERRIDE != 0) = ov := by
    rw [hentry2]
    cases ov
    · rw [if_neg (by decide), Nat.or_zero]
      unfold KSZ9477_STATIC_TABLE_ENTRY2_OVERRIDE
      rw [hsmall0 dp hdp]
      rfl
    · rw [if_pos rfl]
      unfold KSZ9477_STATIC_TABLE_ENTRY2_OVERRIDE
      rw [hsmall2 dp hdp]
      rfl
  rw [Except.ok.injEq, SwitchFdbEntry.mk.injEq]
  refine ⟨haddr, rfl, ?_, ?_⟩
  · unfold updFn
    rw [if_pos rfl]
    exact hports
  · unfold updFn
    rw [if_pos rfl]
    exact hov

/-- C7, counterexample: adding an entry whose destination-port set is
the CPU-port alias `SWITCH_CPU_PORT_MASK` succeeds, but reading the
written slot back yields the translated port-6 mask, not the submitted
value — the round trip does not return "the same destination ports" for
every entry. -/
theorem ksz9477AddStaticFdbEntry_roundtrip_counterexample :
    (match ksz9477AddStaticFdbEntry (fun _ => ⟨0, 0, 0, 0⟩)
        { macAddr := ⟨0, 0, 0, 0, 0, 1⟩, srcPort := 0,
          destPorts := SWITCH_CPU_PORT_MASK, override := false } with
      | Except.ok (t', j) => ksz9477GetStaticFdbEntry t' j
      | Except.error e => Except.error e) =
      Except.ok { macAddr := ⟨0, 0, 0, 0, 0, 1⟩, srcPort := 0,
                  destPorts := KSZ9477_PORT6_MASK, override := false } ∧
    KSZ9477_PORT6_MASK ≠ SWITCH_CPU_PORT_MASK := by
  exact ⟨rfl, by decide⟩

/-- C7 (amended): the add operation scans the 16-slot static table and
writes the encoded entry at the slot already holding the same address if
one exists (the first such slot), otherwise at the first free slot, and
returns `tableFull`, writing nothing, exactly when every slot is valid
with a distinct address.  After a successful add, reading the written
index returns the same address and override flag and — for destination
ports within the 7-port mask and distinct from the CPU-port alias, which
the hardware encoding translates — the same destination ports
(`srcPort` reads as 0). -/
theorem ksz9477AddStaticFdbEntry_spec (table : Nat → Ksz9477StaticRecord)
    (entry : SwitchFdbEntry)
    (hb0 : entry.macAddr.b0 < 256) (hb1 : entry.macAddr.b1 < 256)
    (hb2 : entry.macAddr.b2 < 256) (hb3 : entry.macAddr.b3 < 256)
    (hb4 : entry.macAddr.b4 < 256) (hb5 : entry.macAddr.b5 < 256)
    (hp : entry.destPorts &&& KSZ9477_PORT_MASK = entry.destPorts)
    (hc : entry.destPorts ≠ SWITCH_CPU_PORT_MASK) :
    (ksz9477AddStaticFdbEntry table entry = Except.error error_t.tableFull ↔
      ∀ i, i < KSZ9477_STATIC_MAC_TABLE_SIZE →
        ksz9477StaticValidAt table i ∧
        ksz9477StaticAddrAt table i ≠ entry.macAddr) ∧
    (∀ (t' : Nat → Ksz9477StaticRecord) (j : Nat),
      ksz9477AddStaticFdbEntry table entry = Except.ok (t', j) →
      j < KSZ9477_STATIC_MAC_TABLE_SIZE ∧
      t' = updFn table j (ksz9477StaticEntryRecord entry) ∧
      ((∃ m, m < KSZ9477_STATIC_MAC_TABLE_SIZE ∧
          ksz9477StaticMatchAt table entry.macAddr m) →
        ksz9477StaticMatchAt table entry.macAddr j ∧
        ∀ i, i < j → ¬ ksz9477StaticMatchAt table entry.macAddr i) ∧
      ((∀ m, m < KSZ9477_STATIC_MAC_TABLE_SIZE →
          ¬ ksz9477StaticMatchAt table entry.macAddr m) →
        ¬ ksz9477StaticValidAt table j ∧
        ∀ i, i < j → ksz9477StaticValidAt table i) ∧
      ksz9477GetStaticFdbEntry t' j =
        Except.ok { macAddr := entry.macAddr, srcPort := 0,
                    destPorts := entry.destPorts, override := entry.override }) := by
  constructor
  · constructor
    · intro herr
      unfold ksz9477AddStaticFdbEntry at herr
      by_cases hlt : ksz9477StaticScan table entry.macAddr
          KSZ9477_STATIC_MAC_TABLE_SIZE 0 KSZ9477_STATIC_MAC_TABLE_SIZE <
          KSZ9477_STATIC_MAC_TABLE_SIZE
      · rw [if_pos hlt] at herr
        exact absurd herr (by simp)
      · have hle := ksz9477StaticScan_le table entry.macAddr
          KSZ9477_STATIC_MAC_TABLE_SIZE 0 KSZ9477_STATIC_MAC_TABLE_SIZE
          (Nat.le_refl _)
        have heq : ksz9477StaticScan table entry.macAddr
            KSZ9477_STATIC_MAC_TABLE_SIZE 0 KSZ9477_STATIC_MAC_TABLE_SIZE =
            KSZ9477_STATIC_MAC_TABLE_SIZE := by omega
        obtain ⟨_, hall⟩ := ksz9477StaticScan_eq_size table entry.macAddr
          KSZ9477_STATIC_MAC_TABLE_SIZE 0 KSZ9477_STATIC_MAC_TABLE_SIZE
          (by omega) heq
        exact fun i hi => hall i (Nat.zero_le i) hi
    · intro hall
      unfold ksz9477AddStaticFdbEntry
      have heq : ksz9477StaticScan table entry.macAddr
          KSZ9477_STATIC_MAC_TABLE_SIZE 0 KSZ9477_STATIC_MAC_TABLE_SIZE =
          KSZ9477_STATIC_MAC_TABLE_SIZE :=
        ksz9477StaticScan_all_valid table entry.macAddr
          KSZ9477_STATIC_MAC_TABLE_SIZE 0 (fun m _ hm => hall m hm)
      rw [if_neg (by omega)]
  · intro t' j hok
    unfold ksz9477AddStaticFdbEntry at hok
    by_cases hlt : ksz9477StaticScan table entry.macAddr
        KSZ9477_STATIC_MAC_TABLE_SIZE 0 KSZ9477_STATIC_MAC_TABLE_SIZE <
        KSZ9477_STATIC_MAC_TABLE_SIZE
    · rw [if_pos hlt] at hok
      have hpair : (updFn table
          (ksz9477StaticScan table entry.macAddr
            KSZ9477_STATIC_MAC_TABLE_SIZE 0 KSZ9477_STATIC_MAC_TABLE_SIZE)
          (ksz9477StaticEntryRecord entry),
          ksz9477StaticScan table entry.macAddr
            KSZ9477_STATIC_MAC_TABLE_SIZE 0 KSZ9477_STATIC_MAC_TABLE_SIZE) =
          (t', j) := by
        injection hok
      have ht' : updFn table
          (ksz9477StaticScan table entry.macAddr
            KSZ9477_STATIC_MAC_TABLE_SIZE 0 KSZ9477_STATIC_MAC_TABLE_SIZE)
          (ksz9477StaticEntryRecord entry) = t' := congrArg Prod.fst hpair
      have hj : ksz9477StaticScan table entry.macAddr
          KSZ9477_STATIC_MAC_TABLE_SIZE 0 KSZ9477_STATIC_MAC_TABLE_SIZE = j :=
        congrArg Prod.snd hpair
      subst hj
      refine ⟨hlt, ht'.symm, ?_, ?_, ?_⟩
      · intro hex
        have hfirst : ∀ m', 0 ≤ m' → m' < Nat.find hex →
            ¬ ksz9477StaticMatchAt table entry.macAddr m' := by
          intro m' _ hm' hmatch'
          have hm'lt : m' < KSZ9477_STATIC_MAC_TABLE_SIZE :=
            Nat.lt_trans hm' (Nat.find_spec hex).1
          exact Nat.find_min hex hm' ⟨hm'lt, hmatch'⟩
        have hscan := ksz9477StaticScan_first_match table entry.macAddr
          KSZ9477_STATIC_MAC_TABLE_SIZE 0 KSZ9477_STATIC_MAC_TABLE_SIZE
          (Nat.find hex) (by omega) (Nat.zero_le _) (Nat.find_spec hex).1
          (Nat.find_spec hex).2 hfirst
        rw [hscan]
        refine ⟨(Nat.find_spec hex).2, fun i hi hmatch => ?_⟩
        have hilt : i < KSZ9477_STATIC_MAC_TABLE_SIZE :=
          Nat.lt_trans hi (Nat.find_spec hex).1
        exact Nat.find_min hex hi ⟨hilt, hmatch⟩
      · intro hnm
        by_cases hex : ∃ f, f < KSZ9477_STATIC_MAC_TABLE_SIZE ∧
            ¬ ksz9477StaticValidAt table f
        · have hvalidbefore : ∀ m', 0 ≤ m' → m' < Nat.find hex →
              ksz9477StaticValidAt table m' := by
            intro m' _ hm'
            by_contra hcv
            have hm'lt : m' < KSZ9477_STATIC_MAC_TABLE_SIZE :=
              Nat.lt_trans hm' (Nat.find_spec hex).1
            exact Nat.find_min hex hm' ⟨hm'lt, hcv⟩
          have hscan := ksz9477StaticScan_first_free table entry.macAddr
            KSZ9477_STATIC_MAC_TABLE_SIZE 0 (Nat.find hex) (by omega)
            (fun m _ hm => hnm m hm) (Nat.zero_le _) (Nat.find_spec hex).1
            (Nat.find_spec hex).2 hvalidbefore
          rw [hscan]
          refine ⟨(Nat.find_spec hex).2, fun i hi => ?_⟩
          by_contra hcv
          exact Nat.find_min hex hi
            ⟨Nat.lt_trans hi (Nat.find_spec hex).1, hcv⟩
        · push_neg at hex
          have hall : ∀ m, 0 ≤ m → m < KSZ9477_STATIC_MAC_TABLE_SIZE →
              ksz9477StaticValidAt table m ∧
              ksz9477StaticAddrAt table m ≠ entry.macAddr := by
            intro m _ hm
            refine ⟨hex m hm, fun hca => ?_⟩
            exact hnm m hm ⟨hex m hm, hca⟩
          have heq := ksz9477StaticScan_all_valid table entry.macAddr
            KSZ9477_STATIC_MAC_TABLE_SIZE 0 hall
          omega
      · rw [← ht']
        exact ksz9477GetStaticFdbEntry_after_write table entry _ hlt
          hb0 hb1 hb2 hb3 hb4 hb5 hp hc
    · rw [if_neg hlt] at hok
      exact absurd hok (by simp)

/-- Witness for the amended C7: adding a well-formed entry (ports 1 and
6, override set) to the empty table writes slot 0 and reads back the
identical address, ports and override. -/
theorem ksz9477AddStaticFdbEntry_spec_witness :
    ksz9477GetStaticFdbEntry
        (updFn (fun _ => ⟨0, 0, 0, 0⟩) 0
          (ksz9477StaticEntryRecord
            { macAddr := ⟨0x00, 0x11, 0x22, 0x33, 0x44, 0x55⟩, srcPort := 0,
              destPorts := 0x21, override := true })) 0 =
      Except.ok
        { macAddr := ⟨0x00, 0x11, 0x22, 0x33, 0x44, 0x55⟩, srcPort := 0,
          destPorts := 0x21, override := true } := by
  have h := (ksz9477AddStaticFdbEntry_spec (fun _ => ⟨0, 0, 0, 0⟩)
    { macAddr := ⟨0x00, 0x11, 0x22, 0x33, 0x44, 0x55⟩, srcPort := 0,
      destPorts := 0x21, override := true }
    (by decide) (by decide) (by decide) (by decide) (by decide) (by decide)
    (by decide) (by decide)).2
    (updFn (fun _ => ⟨0, 0, 0, 0⟩) 0
      (ksz9477StaticEntryRecord
        { macAddr := ⟨0x00, 0x11, 0x22, 0x33, 0x44, 0x55⟩, srcPort := 0,
          destPorts := 0x21, override := true })) 0 rfl
  exact h.2.2.2.2

end CycloneTcp
